import Mathlib

/-!
Shallow embedding of the statistical aggregation engine of the
`analysis/src/stats_calculator.py` module (class `StatisticsCalculator`),
together with proofs settling the frozen claims about it.

Modelling conventions:
* pandas numeric cells are rationals (`ℚ`); a cell that may be NaN/NaT is an
  `Option ℚ` with `none` standing for the missing-value sentinel.  All pandas
  reductions skip NaN (`skipna=True`), so a reduction over `Option` cells is
  the reduction over `filterMap id`, and an all-NaN reduction is `none`.
* the one place where IEEE infinities can arise (the reliability ratio
  `messages_lost_sum / messages_sent_sum`) uses the dedicated value type
  `PVal` with IEEE-style division.
* `pandas.Series.round`, `numpy.round` and Python `round` all round half to
  even in decimal terms; `rhe`/`roundTo` embed that convention on `ℚ`.
* `groupby` sorts the group keys ascending and keeps the original row order
  inside each group; `Series.unique` keeps first-occurrence order.
* `sort_values` is modelled as a stable sort (ties keep input order).
* the source's `std` column is the square root of the sample variance; we
  carry the variance itself (field `stdSq`) to stay inside `ℚ`.  Its
  definedness (NaN exactly for groups of fewer than two values) is unchanged
  by the square root, which is all any claim needs.
-/

/-- Sum of a list of rationals. -/
def lsum (xs : List ℚ) : ℚ := xs.foldr (fun a b => a + b) 0

/-- Mean with pandas semantics: NaN (`none`) on an empty list. -/
def lmean (xs : List ℚ) : Option ℚ :=
  match xs with
  | [] => none
  | _ => some (lsum xs / (xs.length : ℚ))

/-- Median of an already sorted nonempty list: middle element for odd
length, mean of the two middle elements for even length. -/
def medianSorted (s : List ℚ) : ℚ :=
  let n := s.length
  if n % 2 = 1 then s.getD (n / 2) 0
  else (s.getD (n / 2 - 1) 0 + s.getD (n / 2) 0) / 2

/-- Median with pandas semantics: sort ascending, middle element for odd
length, mean of the two middle elements for even length, NaN on empty. -/
def lmedian (xs : List ℚ) : Option ℚ :=
  match xs with
  | [] => none
  | _ => some (medianSorted (List.insertionSort (fun a b : ℚ => a ≤ b) xs))

/-- Minimum with pandas semantics: NaN on empty. -/
def lmin (xs : List ℚ) : Option ℚ :=
  match xs with
  | [] => none
  | a :: t => some (t.foldl (fun x y => if y < x then y else x) a)

/-- Maximum with pandas semantics: NaN on empty. -/
def lmax (xs : List ℚ) : Option ℚ :=
  match xs with
  | [] => none
  | a :: t => some (t.foldl (fun x y => if x < y then y else x) a)

/-- Sample variance (the square of pandas `std`, which uses the n-1
denominator): NaN (`none`) for lists of fewer than two values. -/
def lvar (xs : List ℚ) : Option ℚ :=
  if xs.length < 2 then none
  else
    let m := lsum xs / (xs.length : ℚ)
    some (lsum (xs.map (fun x => (x - m) ^ 2)) / ((xs.length : ℚ) - 1))

/-- Mean over nullable cells (pandas `skipna`): NaN values are dropped and an
all-NaN column has NaN mean. -/
def omean (xs : List (Option ℚ)) : Option ℚ := lmean (xs.filterMap id)

/-- Median over nullable cells (pandas `skipna`). -/
def omedian (xs : List (Option ℚ)) : Option ℚ := lmedian (xs.filterMap id)

/-- Minimum over nullable cells (pandas `skipna`). -/
def omin (xs : List (Option ℚ)) : Option ℚ := lmin (xs.filterMap id)

/-- Maximum over nullable cells (pandas `skipna`). -/
def omax (xs : List (Option ℚ)) : Option ℚ := lmax (xs.filterMap id)

/-- Round half to even to an integer, the convention shared by Python
`round`, `numpy.round` and `pandas.Series.round`. -/
def rhe (q : ℚ) : ℤ :=
  let f := ⌊q⌋
  let r := q - (f : ℚ)
  if r < 1 / 2 then f
  else if 1 / 2 < r then f + 1
  else if f % 2 = 0 then f else f + 1

/-- Round to `d` decimal places, half to even: `round(q, d)`. -/
def roundTo (d : ℕ) (q : ℚ) : ℚ := (rhe (q * (10 : ℚ) ^ d) : ℚ) / (10 : ℚ) ^ d

/-- Round to the nearest multiple of ten, half to even: `Series.round(-1)`. -/
def bucket10 (q : ℚ) : ℚ := 10 * (rhe (q / 10) : ℚ)

/-- Truncation toward zero, Python `int()` on a float. -/
def trunc (q : ℚ) : ℤ := if 0 ≤ q then ⌊q⌋ else ⌈q⌉

/-!  Latency-class observation tables and their group aggregators
(`aggregate_rtt_stats`, `aggregate_connection_time_stats`,
`aggregate_broadcast_latency_stats`).  The three source methods are
identical up to the name of the metric column (`rtt_ms`,
`connection_time_ms`, `latency_ms`), so they share one embedding of the
grouped-aggregation body, applied to the row's metric `value`. -/

/-- One raw latency-class observation row: `library`, `client_count`, and the
metric value (`rtt_ms` / `connection_time_ms` / `latency_ms`). -/
structure ObsRow where
  library : String
  client_count : ℤ
  value : ℚ
deriving DecidableEq, Repr

/-- Grouping key used by the latency-class aggregators. -/
abbrev GKey := String × ℤ

/-- Grouping key of an observation row. -/
def obsKey (r : ObsRow) : GKey := (r.library, r.client_count)

/-- Lexicographic order on group keys, the ascending key order produced by
`DataFrame.groupby` with its default `sort=True`. -/
def keyLe (a b : GKey) : Prop := a.1 < b.1 ∨ (a.1 = b.1 ∧ a.2 ≤ b.2)

instance : DecidableRel keyLe := fun a b =>
  inferInstanceAs (Decidable (a.1 < b.1 ∨ (a.1 = b.1 ∧ a.2 ≤ b.2)))

/-- Distinct group keys of a table, in the sorted order `groupby` emits. -/
def groupKeys (rows : List ObsRow) : List GKey :=
  List.insertionSort keyLe (rows.map obsKey).dedup

/-- Metric values of the group of key `k`, in input row order. -/
def valuesFor (rows : List ObsRow) (k : GKey) : List ℚ :=
  (rows.filter (fun r => obsKey r = k)).map (fun r => r.value)

/-- One aggregated row: `mean, median, std, min, max, count` of the metric
column for one `(library, client_count)` group.  `stdSq` is the square of
the source's `std` column (sample variance); see the module header. -/
structure StatRow where
  library : String
  client_count : ℤ
  mean : Option ℚ
  median : Option ℚ
  stdSq : Option ℚ
  min : Option ℚ
  max : Option ℚ
  count : ℕ
deriving DecidableEq, Repr

/-- Aggregated row of group `k`, computed over the filtered group values. -/
def statRowFor (rows : List ObsRow) (k : GKey) : StatRow :=
  let vs := valuesFor rows k
  { library := k.1
    client_count := k.2
    mean := lmean vs
    median := lmedian vs
    stdSq := lvar vs
    min := lmin vs
    max := lmax vs
    count := vs.length }

/-- Shared body of the three latency-class aggregators: empty in, empty out;
otherwise one aggregated row per distinct `(library, client_count)` key. -/
def aggregateLatencyStats (rows : List ObsRow) : List StatRow :=
  match rows with
  | [] => []
  | _ => (groupKeys rows).map (statRowFor rows)

/-- Source `aggregate_rtt_stats` (metric column `rtt_ms`). -/
def aggregate_rtt_stats (rows : List ObsRow) : List StatRow :=
  aggregateLatencyStats rows

/-- Source `aggregate_connection_time_stats` (metric column
`connection_time_ms`). -/
def aggregate_connection_time_stats (rows : List ObsRow) : List StatRow :=
  aggregateLatencyStats rows

/-- Source `aggregate_broadcast_latency_stats` (metric column `latency_ms`). -/
def aggregate_broadcast_latency_stats (rows : List ObsRow) : List StatRow :=
  aggregateLatencyStats rows

/-!  Reliability aggregation (`aggregate_reliability_stats`).  The derived
ratio `messages_lost_sum / messages_sent_sum` is the one place where IEEE
special values other than NaN can appear (x/0 is ±infinity, 0/0 is NaN), so
the derived column uses the value type `PVal`. -/

/-- Pandas/IEEE numeric cell value: a rational number, NaN, or an infinity. -/
inductive PVal where
  | nan : PVal
  | pinf : PVal
  | ninf : PVal
  | num : ℚ → PVal
deriving DecidableEq, Repr

/-- Division of two rationals with IEEE semantics: x/0 is ±infinity for
nonzero x and NaN for 0/0, as pandas produces for the loss-rate ratio. -/
def pdiv (a b : ℚ) : PVal :=
  if b = 0 then
    if a = 0 then PVal.nan else if 0 < a then PVal.pinf else PVal.ninf
  else PVal.num (a / b)

/-- Multiplication of a cell value by a positive rational constant, as used
for the `* 100` percentage scaling (the constant is never zero). -/
def pscale (c : ℚ) (v : PVal) : PVal :=
  match v with
  | PVal.nan => PVal.nan
  | PVal.pinf => PVal.pinf
  | PVal.ninf => PVal.ninf
  | PVal.num q => PVal.num (c * q)

/-- Rounding of a cell value: `Series.round` leaves NaN and infinities
unchanged. -/
def pround (d : ℕ) (v : PVal) : PVal :=
  match v with
  | PVal.num q => PVal.num (roundTo d q)
  | v => v

/-- One raw reliability observation row. -/
structure RelRow where
  library : String
  client_count : ℤ
  messages_sent : ℚ
  messages_received : ℚ
  messages_lost : ℚ
  loss_rate_percent : ℚ
deriving DecidableEq, Repr

/-- Grouping key of a reliability row. -/
def relKey (r : RelRow) : GKey := (r.library, r.client_count)

/-- Distinct reliability group keys in the sorted order `groupby` emits. -/
def relKeys (rows : List RelRow) : List GKey :=
  List.insertionSort keyLe (rows.map relKey).dedup

/-- Reliability rows of the group of key `k`, in input row order. -/
def relRowsFor (rows : List RelRow) (k : GKey) : List RelRow :=
  rows.filter (fun r => relKey r = k)

/-- One aggregated reliability row, with the flattened `groupby.agg` columns
and the derived `total_loss_rate`. -/
structure RelStatRow where
  library : String
  client_count : ℤ
  messages_sent_sum : ℚ
  messages_sent_mean : Option ℚ
  messages_received_sum : ℚ
  messages_received_mean : Option ℚ
  messages_lost_sum : ℚ
  messages_lost_mean : Option ℚ
  loss_rate_percent_mean : Option ℚ
  loss_rate_percent_median : Option ℚ
  loss_rate_percent_max : Option ℚ
  total_loss_rate : PVal
deriving DecidableEq, Repr

/-- Aggregated reliability row of group `k`: sums and means of the count
columns, mean/median/max of `loss_rate_percent`, and
`total_loss_rate = (messages_lost_sum / messages_sent_sum * 100).round(2)`. -/
def relStatRowFor (rows : List RelRow) (k : GKey) : RelStatRow :=
  let g := relRowsFor rows k
  let sent := g.map (fun r => r.messages_sent)
  let received := g.map (fun r => r.messages_received)
  let lost := g.map (fun r => r.messages_lost)
  let lrp := g.map (fun r => r.loss_rate_percent)
  { library := k.1
    client_count := k.2
    messages_sent_sum := lsum sent
    messages_sent_mean := lmean sent
    messages_received_sum := lsum received
    messages_received_mean := lmean received
    messages_lost_sum := lsum lost
    messages_lost_mean := lmean lost
    loss_rate_percent_mean := lmean lrp
    loss_rate_percent_median := lmedian lrp
    loss_rate_percent_max := lmax lrp
    total_loss_rate := pround 2 (pscale 100 (pdiv (lsum lost) (lsum sent))) }

/-- Source `aggregate_reliability_stats`: empty in, empty out; otherwise one
aggregated row per distinct `(library, client_count)` key. -/
def aggregate_reliability_stats (rows : List RelRow) : List RelStatRow :=
  match rows with
  | [] => []
  | _ => (relKeys rows).map (relStatRowFor rows)

/-!  Stability aggregation (`aggregate_stability_stats`). -/

/-- One raw connection-stability observation row. -/
structure StabRow where
  library : String
  client_count : ℤ
  disconnect_count : ℚ
deriving DecidableEq, Repr

/-- Grouping key of a stability row. -/
def stabKey (r : StabRow) : GKey := (r.library, r.client_count)

/-- Distinct stability group keys in the sorted order `groupby` emits. -/
def stabKeys (rows : List StabRow) : List GKey :=
  List.insertionSort keyLe (rows.map stabKey).dedup

/-- Disconnect counts of the group of key `k`, in input row order. -/
def stabValuesFor (rows : List StabRow) (k : GKey) : List ℚ :=
  (rows.filter (fun r => stabKey r = k)).map (fun r => r.disconnect_count)

/-- One aggregated stability row. -/
structure StabStatRow where
  library : String
  client_count : ℤ
  disconnect_count_sum : ℚ
  disconnect_count_mean : Option ℚ
  disconnect_count_median : Option ℚ
  disconnect_count_max : Option ℚ
  disconnect_count_count : ℕ
  clients_with_disconnects_pct : ℚ
deriving DecidableEq, Repr

/-- Aggregated stability row of group `k`:
`clients_with_disconnects_pct = ((count of values > 0) / count * 100).round(2)`
(group counts are at least one, so the division is by a nonzero number). -/
def stabStatRowFor (rows : List StabRow) (k : GKey) : StabStatRow :=
  let vs := stabValuesFor rows k
  { library := k.1
    client_count := k.2
    disconnect_count_sum := lsum vs
    disconnect_count_mean := lmean vs
    disconnect_count_median := lmedian vs
    disconnect_count_max := lmax vs
    disconnect_count_count := vs.length
    clients_with_disconnects_pct :=
      roundTo 2 ((((vs.filter (fun v => 0 < v)).length : ℚ) / (vs.length : ℚ)) * 100) }

/-- Source `aggregate_stability_stats`: empty in, empty out; otherwise one
aggregated row per distinct `(library, client_count)` key. -/
def aggregate_stability_stats (rows : List StabRow) : List StabStatRow :=
  match rows with
  | [] => []
  | _ => (stabKeys rows).map (stabStatRowFor rows)

/-!  Throughput tables.  The source module's only throughput routine is
`calculate_throughput_vs_load`; the by-library summary aggregator
`aggregate_throughput_stats` that the analysis driver calls is absent from
the module and is modelled from the spec below. -/

/-- One raw throughput sample row. -/
structure ThroughRow where
  library : String
  timestamp : ℚ
  messages_per_second : ℚ
  active_connections : ℚ
deriving DecidableEq, Repr

/-- Grouping key of the throughput-vs-load computation. -/
abbrev TKey := String × ℚ

/-- Lexicographic order on `(library, client_count)` keys with a rational
load level, the ascending key order `groupby` emits. -/
def tkeyLe (a b : TKey) : Prop := a.1 < b.1 ∨ (a.1 = b.1 ∧ a.2 ≤ b.2)

instance : DecidableRel tkeyLe := fun a b =>
  inferInstanceAs (Decidable (a.1 < b.1 ∨ (a.1 = b.1 ∧ a.2 ≤ b.2)))

/-- One output row of the throughput-vs-load computation. -/
structure ThroughOutRow where
  library : String
  client_count : ℚ
  mean_throughput : ℚ
deriving DecidableEq, Repr

/-- Key assigned by the source: the library paired with `active_connections`
rounded to the nearest multiple of ten (`Series.round(-1)`). -/
def loadKey (r : ThroughRow) : TKey := (r.library, bucket10 r.active_connections)

/-- Distinct load keys of the filtered throughput rows, sorted. -/
def loadKeys (rows : List ThroughRow) : List TKey :=
  List.insertionSort tkeyLe (rows.map loadKey).dedup

/-- Output row of one `(library, rounded connections)` group: the mean of
`messages_per_second` over the group. -/
def loadRowFor (rows : List ThroughRow) (k : TKey) : ThroughOutRow :=
  let vs := (rows.filter (fun r => loadKey r = k)).map (fun r => r.messages_per_second)
  { library := k.1, client_count := k.2, mean_throughput := lsum vs / (vs.length : ℚ) }

/-- Source `calculate_throughput_vs_load`: keep rows with
`messages_per_second > 0`, round `active_connections` to the nearest ten as
`client_count`, group by `(library, client_count)` and average
`messages_per_second`. -/
def calculate_throughput_vs_load (rows : List ThroughRow) : List ThroughOutRow :=
  match rows with
  | [] => []
  | _ =>
    let act := rows.filter (fun r => 0 < r.messages_per_second)
    match act with
    | [] => []
    | _ => (loadKeys act).map (loadRowFor act)

/-- Spec-claim version of the throughput-vs-load curve, written from the
claim's words for comparison with `calculate_throughput_vs_load`: keep the
retained rows strictly before the first boundary, scanning successive
`active_connections` differences for a drop of more than 50 (auxiliary
recursion carrying the previous row). -/
def firstPhaseAux (prev : ThroughRow) : List ThroughRow → List ThroughRow
  | [] => []
  | r :: t =>
    if r.active_connections - prev.active_connections < -50 then []
    else r :: firstPhaseAux r t

/-- Spec-claim version, phase isolation: the samples strictly before the
first index whose successive `active_connections` difference drops by more
than 50, the whole series when no such drop exists. -/
def firstPhase : List ThroughRow → List ThroughRow
  | [] => []
  | r :: t => r :: firstPhaseAux r t

/-- Exact-connection-level key used by the spec-claim version. -/
def exactKey (r : ThroughRow) : TKey := (r.library, r.active_connections)

/-- Spec-claim version of the throughput-vs-load curve extraction (claim C2):
filter to `messages_per_second > 0 AND active_connections > 0`, order by
timestamp, retain only samples strictly before the first drop of more than
50 in successive `active_connections` differences, then group by the exact
`active_connections` value and average `messages_per_second`. -/
def throughputCurveClaim (rows : List ThroughRow) : List ThroughOutRow :=
  let act := rows.filter (fun r => 0 < r.messages_per_second ∧ 0 < r.active_connections)
  let ordered := List.insertionSort (fun a b : ThroughRow => a.timestamp ≤ b.timestamp) act
  let phase := firstPhase ordered
  (List.insertionSort tkeyLe (phase.map exactKey).dedup).map (fun k =>
    let vs := (phase.filter (fun r => exactKey r = k)).map (fun r => r.messages_per_second)
    { library := k.1, client_count := k.2, mean_throughput := lsum vs / (vs.length : ℚ) })

/-- One aggregated by-library throughput summary row, the shape the summary
table builder reads its `mean` and `max` columns from. -/
structure ThroughStatRow where
  library : String
  mean : Option ℚ
  median : Option ℚ
  stdSq : Option ℚ
  min : Option ℚ
  max : Option ℚ
  count : ℕ
deriving DecidableEq, Repr

/-- Modelled from the spec: `aggregate_throughput_stats` is called by the
analysis driver but missing from the repository's stats module; per spec
§4.1 the throughput aggregator first discards rows with
`messages_per_second <= 0` (empty output if none survive), then groups by
`library` alone and computes `mean, median, std, min, max, count` of
`messages_per_second`; an empty input table yields an empty output table. -/
def aggregate_throughput_stats (rows : List ThroughRow) : List ThroughStatRow :=
  match rows with
  | [] => []
  | _ =>
    let act := rows.filter (fun r => 0 < r.messages_per_second)
    match act with
    | [] => []
    | _ =>
      (List.insertionSort (fun a b : String => a ≤ b) (act.map (fun r => r.library)).dedup).map
        (fun lib =>
          let vs := (act.filter (fun r => r.library = lib)).map (fun r => r.messages_per_second)
          { library := lib, mean := lmean vs, median := lmedian vs, stdSq := lvar vs,
            min := lmin vs, max := lmax vs, count := vs.length })

/-!  Resource tables.  The column set of a resource table varies with the
server runtimes that produced it, and the source branches on column
presence (`'cpu_goroutines' in server_df.columns` and so on), so the table
carries one presence flag per column the source tests; a cell is `none`
when its value is NaN (a column read is only ever guarded by its flag). -/

/-- Column-presence flags of a resource table, one per column whose
presence the source tests. -/
structure ResourceCols where
  hasCpuGoroutines : Bool
  hasCpuUserMs : Bool
  hasCpuPercent : Bool
  hasMemAlloc : Bool
  hasMemSys : Bool
  hasMemRss : Bool
  hasMemHeapUsed : Bool
  hasHeapTotal : Bool
  hasExternal : Bool
  hasActive : Bool
deriving DecidableEq, Repr

/-- One resource sample row; every metric cell is nullable.  `timestamp` is
in seconds (the source converts parsed datetimes to seconds since epoch),
`none` standing for an unparseable timestamp (NaT). -/
structure ResourceRow where
  server : String
  timestamp : Option ℚ
  active_connections : Option ℚ
  cpu_goroutines : Option ℚ
  memory_alloc_mb : Option ℚ
  memory_sys_mb : Option ℚ
  gc_count : Option ℚ
  cpu_user_ms : Option ℚ
  cpu_system_ms : Option ℚ
  cpu_percent : Option ℚ
  memory_rss_mb : Option ℚ
  memory_heap_used_mb : Option ℚ
  memory_heap_total_mb : Option ℚ
  memory_external_mb : Option ℚ
deriving DecidableEq, Repr

/-- Resource table: presence flags plus rows. -/
structure ResourceTable where
  cols : ResourceCols
  rows : List ResourceRow
deriving DecidableEq, Repr

/-- One output row of `aggregate_resource_stats`.  A field is `none` when
its dictionary key was never set (its branch did not run) or its aggregate
is NaN; both render as missing in the resulting data frame. -/
structure ResSummaryRow where
  server : String
  cpu_goroutines_mean : Option ℚ
  cpu_goroutines_max : Option ℚ
  memory_alloc_mb_mean : Option ℚ
  memory_alloc_mb_max : Option ℚ
  memory_sys_mb_mean : Option ℚ
  memory_sys_mb_max : Option ℚ
  gc_count_total : Option ℚ
  cpu_user_ms_mean : Option ℚ
  cpu_user_ms_max : Option ℚ
  cpu_system_ms_mean : Option ℚ
  cpu_system_ms_max : Option ℚ
  cpu_percent_mean : Option ℚ
  cpu_percent_max : Option ℚ
  memory_rss_mb_mean : Option ℚ
  memory_rss_mb_max : Option ℚ
  memory_heap_used_mb_mean : Option ℚ
  memory_heap_used_mb_max : Option ℚ
deriving DecidableEq, Repr

/-- Difference of the maximal and minimal non-null values, NaN when the
column is all-null (`max - min` of pandas aggregates). -/
def orange (xs : List (Option ℚ)) : Option ℚ :=
  match omax xs, omin xs with
  | some a, some b => some (a - b)
  | _, _ => none

/-- Per-server summary row of `aggregate_resource_stats`: the goroutine
block runs when the `cpu_goroutines` column is present, the event-loop
block when the `cpu_user_ms` column is present (with `cpu_percent` guarded
by its own presence test). -/
def resSummaryRowFor (cols : ResourceCols) (rows : List ResourceRow) (s : String) :
    ResSummaryRow :=
  let g := rows.filter (fun r => r.server = s)
  { server := s
    cpu_goroutines_mean :=
      if cols.hasCpuGoroutines then omean (g.map (fun r => r.cpu_goroutines)) else none
    cpu_goroutines_max :=
      if cols.hasCpuGoroutines then omax (g.map (fun r => r.cpu_goroutines)) else none
    memory_alloc_mb_mean :=
      if cols.hasCpuGoroutines then omean (g.map (fun r => r.memory_alloc_mb)) else none
    memory_alloc_mb_max :=
      if cols.hasCpuGoroutines then omax (g.map (fun r => r.memory_alloc_mb)) else none
    memory_sys_mb_mean :=
      if cols.hasCpuGoroutines then omean (g.map (fun r => r.memory_sys_mb)) else none
    memory_sys_mb_max :=
      if cols.hasCpuGoroutines then omax (g.map (fun r => r.memory_sys_mb)) else none
    gc_count_total :=
      if cols.hasCpuGoroutines then orange (g.map (fun r => r.gc_count)) else none
    cpu_user_ms_mean :=
      if cols.hasCpuUserMs then omean (g.map (fun r => r.cpu_user_ms)) else none
    cpu_user_ms_max :=
      if cols.hasCpuUserMs then omax (g.map (fun r => r.cpu_user_ms)) else none
    cpu_system_ms_mean :=
      if cols.hasCpuUserMs then omean (g.map (fun r => r.cpu_system_ms)) else none
    cpu_system_ms_max :=
      if cols.hasCpuUserMs then omax (g.map (fun r => r.cpu_system_ms)) else none
    cpu_percent_mean :=
      if cols.hasCpuUserMs && cols.hasCpuPercent then omean (g.map (fun r => r.cpu_percent))
      else none
    cpu_percent_max :=
      if cols.hasCpuUserMs && cols.hasCpuPercent then omax (g.map (fun r => r.cpu_percent))
      else none
    memory_rss_mb_mean :=
      if cols.hasCpuUserMs then omean (g.map (fun r => r.memory_rss_mb)) else none
    memory_rss_mb_max :=
      if cols.hasCpuUserMs then omax (g.map (fun r => r.memory_rss_mb)) else none
    memory_heap_used_mb_mean :=
      if cols.hasCpuUserMs then omean (g.map (fun r => r.memory_heap_used_mb)) else none
    memory_heap_used_mb_max :=
      if cols.hasCpuUserMs then omax (g.map (fun r => r.memory_heap_used_mb)) else none }

/-- Source `aggregate_resource_stats`: empty in, empty out; otherwise one
summary row per distinct server, in first-occurrence order. -/
def aggregate_resource_stats (t : ResourceTable) : List ResSummaryRow :=
  match t.rows with
  | [] => []
  | _ => ((t.rows.map (fun r => r.server)).dedup).map (resSummaryRowFor t.cols t.rows)

/-!  Phase-bucketed memory view (`aggregate_memory_by_phase`). -/

/-- One output row of `aggregate_memory_by_phase`; each style's absent
fields are explicitly null for the other style. -/
structure MemPhaseRow where
  server : String
  client_count : ℤ
  memory_alloc_mb_mean : Option ℚ
  memory_sys_mb_mean : Option ℚ
  gc_count : Option ℤ
  memory_rss_mb_mean : Option ℚ
  memory_heap_used_mb_mean : Option ℚ
  memory_heap_total_mb_mean : Option ℚ
  memory_external_mb_mean : Option ℚ
deriving DecidableEq, Repr

/-- Membership test for the active-phase filter
(`df['active_connections'] > 0`; a NaN comparison is false). -/
def isActive (r : ResourceRow) : Bool :=
  match r.active_connections with
  | some a => decide (0 < a)
  | none => false

/-- Load bucket of an active row: `active_connections` rounded to the
nearest multiple of ten. -/
def loadBucket (r : ResourceRow) : ℚ := bucket10 (r.active_connections.getD 0)

/-- Distinct load buckets of a server's active rows, in the ascending order
`groupby` emits. -/
def memBuckets (srows : List ResourceRow) : List ℚ :=
  List.insertionSort (fun a b : ℚ => a ≤ b) (srows.map loadBucket).dedup

/-- Goroutine-style classification used by the phase views: the
`memory_alloc_mb` column is present and has at least one non-null value
among the server's (active) rows. -/
def memIsGo (cols : ResourceCols) (srows : List ResourceRow) : Bool :=
  cols.hasMemAlloc && srows.any (fun r => r.memory_alloc_mb.isSome)

/-- Event-loop-style classification used by the phase views: the
`memory_rss_mb` column is present and has at least one non-null value
among the server's (active) rows. -/
def memIsNode (cols : ResourceCols) (srows : List ResourceRow) : Bool :=
  cols.hasMemRss && srows.any (fun r => r.memory_rss_mb.isSome)

/-- Goroutine-style phase row of one load bucket: rounded means of
`memory_alloc_mb` and `memory_sys_mb`, truncated max of `gc_count`, and
explicitly null event-loop fields. -/
def goPhaseRow (s : String) (srows : List ResourceRow) (b : ℚ) : MemPhaseRow :=
  let g := srows.filter (fun r => loadBucket r = b)
  { server := s
    client_count := trunc b
    memory_alloc_mb_mean := (omean (g.map (fun r => r.memory_alloc_mb))).map (roundTo 2)
    memory_sys_mb_mean := (omean (g.map (fun r => r.memory_sys_mb))).map (roundTo 2)
    gc_count := (omax (g.map (fun r => r.gc_count))).map trunc
    memory_rss_mb_mean := none
    memory_heap_used_mb_mean := none
    memory_heap_total_mb_mean := none
    memory_external_mb_mean := none }

/-- Event-loop-style phase row of one load bucket: rounded means of the
resident/heap columns (the optional heap-total and external columns only
when present), and explicitly null goroutine fields. -/
def nodePhaseRow (cols : ResourceCols) (s : String) (srows : List ResourceRow) (b : ℚ) :
    MemPhaseRow :=
  let g := srows.filter (fun r => loadBucket r = b)
  { server := s
    client_count := trunc b
    memory_alloc_mb_mean := none
    memory_sys_mb_mean := none
    gc_count := none
    memory_rss_mb_mean := (omean (g.map (fun r => r.memory_rss_mb))).map (roundTo 2)
    memory_heap_used_mb_mean := (omean (g.map (fun r => r.memory_heap_used_mb))).map (roundTo 2)
    memory_heap_total_mb_mean :=
      if cols.hasHeapTotal then (omean (g.map (fun r => r.memory_heap_total_mb))).map (roundTo 2)
      else none
    memory_external_mb_mean :=
      if cols.hasExternal then (omean (g.map (fun r => r.memory_external_mb))).map (roundTo 2)
      else none }

/-- Goroutine-branch rows of one server of `aggregate_memory_by_phase`. -/
def memGoRows (cols : ResourceCols) (act : List ResourceRow) (s : String) : List MemPhaseRow :=
  let srows := act.filter (fun r => r.server = s)
  if memIsGo cols srows then (memBuckets srows).map (goPhaseRow s srows) else []

/-- Event-loop-branch rows of one server of `aggregate_memory_by_phase`
(the branch is an `elif`, so a goroutine-classified server contributes
nothing here). -/
def memNodeRows (cols : ResourceCols) (act : List ResourceRow) (s : String) : List MemPhaseRow :=
  let srows := act.filter (fun r => r.server = s)
  if memIsGo cols srows then []
  else if memIsNode cols srows then (memBuckets srows).map (nodePhaseRow cols s srows)
  else []

/-- Source `aggregate_memory_by_phase`: empty (or `active_connections`-less)
in, empty out; filter to rows with positive `active_connections`; then per
server and load bucket emit a goroutine-style or event-loop-style row, all
goroutine-style rows before all event-loop-style rows. -/
def aggregate_memory_by_phase (t : ResourceTable) : List MemPhaseRow :=
  match t.rows with
  | [] => []
  | _ =>
    if t.cols.hasActive then
      let act := t.rows.filter isActive
      match act with
      | [] => []
      | _ =>
        let servers := (act.map (fun r => r.server)).dedup
        servers.flatMap (memGoRows t.cols act) ++ servers.flatMap (memNodeRows t.cols act)
    else []

/-!  Memory-leak detection (`detect_memory_leaks`).  The ordinary
least-squares slope and the squared correlation coefficient of
`scipy.stats.linregress` are embedded exactly over `ℚ`; the regression's
two-sided p-value comes from scipy's Student-t survival function, a
transcendental routine of the external scipy library, so it enters the
model as an explicit function parameter `pval` of the time axis and the
metric values, and every theorem below holds for all `pval`. -/

/-- Centered second moment `Sxx` of a list about its mean. -/
def regSxx (xs : List ℚ) : ℚ :=
  let m := lsum xs / (xs.length : ℚ)
  lsum (xs.map (fun x => (x - m) ^ 2))

/-- Centered cross moment `Sxy` of two equal-length lists. -/
def regSxy (xs ys : List ℚ) : ℚ :=
  let mx := lsum xs / (xs.length : ℚ)
  let my := lsum ys / (ys.length : ℚ)
  lsum (List.zipWith (fun x y => (x - mx) * (y - my)) xs ys)

/-- Ordinary least-squares slope of `ys` against `xs`. -/
def regSlope (xs ys : List ℚ) : ℚ := regSxy xs ys / regSxx xs

/-- Squared correlation coefficient of `ys` against `xs` (zero when either
variance vanishes, as `linregress` reports). -/
def regR2 (xs ys : List ℚ) : ℚ :=
  if regSxx xs * regSxx ys = 0 then 0 else (regSxy xs ys) ^ 2 / (regSxx xs * regSxx ys)

/-- Type of the external p-value routine: time axis and metric values to
two-sided p-value. -/
abbrev PvalFun := List ℚ → List ℚ → ℚ

/-- One output row of `detect_memory_leaks`. -/
structure LeakRow where
  server : String
  metric : String
  growth_rate_mb_per_hour : Option ℚ
  r_squared : Option ℚ
  p_value : Option ℚ
  leak_detected : Bool
  start_memory_mb : Option ℚ
  end_memory_mb : Option ℚ
  total_growth_mb : Option ℚ
deriving DecidableEq, Repr

/-- Leak row of one memory column of one retained server: regression of the
cells against the elapsed-seconds axis `xs`, growth rate `slope * 3600`
rounded to four places, and the leak flag as the conjunction
`slope > 0.01 ∧ r² > 0.7 ∧ p < 0.05`.  When any cell is NaN the
regression outputs are NaN (`linregress` propagates NaN and every NaN
comparison is false, so the flag is false). -/
def leakRowFor (pval : PvalFun) (s metricName : String) (xs : List ℚ)
    (cells : List (Option ℚ)) : LeakRow :=
  let first := cells.head?.join
  let last := cells.getLast?.join
  let tg := match first, last with
    | some a, some b => some (b - a)
    | _, _ => none
  if cells.all (fun c => c.isSome) then
    let ys := cells.filterMap id
    let slope := regSlope xs ys
    let r2 := regR2 xs ys
    let p := pval xs ys
    { server := s
      metric := metricName
      growth_rate_mb_per_hour := some (roundTo 4 (slope * 3600))
      r_squared := some (roundTo 4 r2)
      p_value := some (roundTo 4 p)
      leak_detected := decide (1 / 100 < slope ∧ 7 / 10 < r2 ∧ p < 1 / 20)
      start_memory_mb := first.map (roundTo 2)
      end_memory_mb := last.map (roundTo 2)
      total_growth_mb := tg.map (roundTo 2) }
  else
    { server := s
      metric := metricName
      growth_rate_mb_per_hour := none
      r_squared := none
      p_value := none
      leak_detected := false
      start_memory_mb := first.map (roundTo 2)
      end_memory_mb := last.map (roundTo 2)
      total_growth_mb := tg.map (roundTo 2) }

/-- Timestamp of a row with the NaT sentinel stripped (only applied to
rows already known timestamp-valid). -/
def tsVal (r : ResourceRow) : ℚ := r.timestamp.getD 0

/-- Timestamp-valid rows in chronological order (`dropna` on the timestamp
then a stable sort by it). -/
def validSorted (rows : List ResourceRow) : List ResourceRow :=
  List.insertionSort (fun a b : ResourceRow => tsVal a ≤ tsVal b)
    (rows.filter (fun r => r.timestamp.isSome))

/-- Memory-metric columns present in the table, in the fixed order the
source checks them, each with its display name and cell accessor. -/
def memLeakCols (cols : ResourceCols) : List (String × (ResourceRow → Option ℚ)) :=
  (if cols.hasMemAlloc then [("Memory Alloc (MB)", fun r => r.memory_alloc_mb)] else []) ++
  (if cols.hasMemSys then [("Memory Sys (MB)", fun r => r.memory_sys_mb)] else []) ++
  (if cols.hasMemRss then [("Memory RSS (MB)", fun r => r.memory_rss_mb)] else []) ++
  (if cols.hasMemHeapUsed then [("Memory Heap Used (MB)", fun r => r.memory_heap_used_mb)] else [])

/-- Leak rows of one server: servers with fewer than ten timestamp-valid
samples are skipped entirely; otherwise one row per present memory column,
over the zero-based elapsed-seconds axis. -/
def leakRowsForServer (pval : PvalFun) (cols : ResourceCols) (rows : List ResourceRow)
    (s : String) : List LeakRow :=
  let srows := validSorted (rows.filter (fun r => r.server = s))
  if srows.length < 10 then []
  else
    let m := (lmin (srows.map tsVal)).getD 0
    let xs := srows.map (fun r => tsVal r - m)
    (memLeakCols cols).map (fun c => leakRowFor pval s c.1 xs (srows.map c.2))

/-- Source `detect_memory_leaks`: empty in, empty out; otherwise the leak
rows of each distinct server in first-occurrence order. -/
def detect_memory_leaks (pval : PvalFun) (t : ResourceTable) : List LeakRow :=
  match t.rows with
  | [] => []
  | _ => ((t.rows.map (fun r => r.server)).dedup).flatMap (leakRowsForServer pval t.cols t.rows)

/-!  Performance degradation (`calculate_performance_degradation`). -/

/-- One input row: an RTT aggregate's `library`, `client_count` and `mean`
columns. -/
structure DegInRow where
  library : String
  client_count : ℤ
  mean : ℚ
deriving DecidableEq, Repr

/-- One output row of `calculate_performance_degradation`. -/
structure DegRow where
  library : String
  baseline_clients : ℤ
  baseline_rtt_ms : ℚ
  peak_clients : ℤ
  peak_rtt_ms : ℚ
  total_degradation_pct : ℚ
  degradation_per_100_clients_pct : ℚ
deriving DecidableEq, Repr

/-- Minimum of a list of integers, zero on empty (only applied to nonempty
lists). -/
def iminD (xs : List ℤ) : ℤ :=
  match xs with
  | [] => 0
  | a :: t => t.foldl min a

/-- Maximum of a list of integers, zero on empty (only applied to nonempty
lists). -/
def imaxD (xs : List ℤ) : ℤ :=
  match xs with
  | [] => 0
  | a :: t => t.foldl max a

/-- Degradation row of one library's aggregate rows: baseline and peak are
the first rows at the minimal and maximal `client_count` (ties broken by
input order, modelling the stable pick of `iloc[0]` after sorting);
percentages zero when the baseline mean is not positive or the peak load
equals the baseline load; all four derived fields rounded to two places. -/
def degRowFor (g : List DegInRow) (lib : String) : DegRow :=
  let ccs := g.map (fun r => r.client_count)
  let bc := iminD ccs
  let pc := imaxD ccs
  let baseline := ((g.filter (fun r => r.client_count = bc)).map (fun r => r.mean)).headD 0
  let peak := ((g.filter (fun r => r.client_count = pc)).map (fun r => r.mean)).headD 0
  let degradationPct := if 0 < baseline then (peak - baseline) / baseline * 100 else 0
  let per100 := if bc < pc then degradationPct / (((pc - bc : ℤ) : ℚ) / 100) else 0
  { library := lib
    baseline_clients := bc
    baseline_rtt_ms := roundTo 2 baseline
    peak_clients := pc
    peak_rtt_ms := roundTo 2 peak
    total_degradation_pct := roundTo 2 degradationPct
    degradation_per_100_clients_pct := roundTo 2 per100 }

/-- Source `calculate_performance_degradation`: empty in, empty out;
libraries with fewer than two aggregate rows are skipped; each other
library yields one degradation row. -/
def calculate_performance_degradation (rows : List DegInRow) : List DegRow :=
  match rows with
  | [] => []
  | _ =>
    ((rows.map (fun r => r.library)).dedup).filterMap (fun lib =>
      let g := rows.filter (fun r => r.library = lib)
      if g.length < 2 then none else some (degRowFor g lib))

/-!  Summary table builder (`create_summary_table`). -/

/-- Addition of two cell values with IEEE special-value algebra (NaN
dominates, opposite infinities give NaN), used to sum a column that may
hold infinities. -/
def pvAdd : PVal → PVal → PVal
  | PVal.nan, _ => PVal.nan
  | _, PVal.nan => PVal.nan
  | PVal.pinf, PVal.ninf => PVal.nan
  | PVal.ninf, PVal.pinf => PVal.nan
  | PVal.pinf, _ => PVal.pinf
  | _, PVal.pinf => PVal.pinf
  | PVal.ninf, _ => PVal.ninf
  | _, PVal.ninf => PVal.ninf
  | PVal.num a, PVal.num b => PVal.num (a + b)

/-- Division of a cell value by a positive natural count (the group size). -/
def pvDivNat (v : PVal) (n : ℕ) : PVal :=
  match v with
  | PVal.num q => PVal.num (q / (n : ℚ))
  | v => v

/-- Mean of a column of cell values with pandas semantics: NaN entries are
skipped, an all-NaN column has NaN mean, remaining infinities propagate. -/
def pmean (xs : List PVal) : PVal :=
  let vs := xs.filter (fun v => v ≠ PVal.nan)
  match vs with
  | [] => PVal.nan
  | _ => pvDivNat (vs.foldr pvAdd (PVal.num 0)) vs.length

/-- One row of the summary table; a `none` field was never set for that
library (its metric block had no rows). -/
structure SummaryRow where
  library : String
  rtt_mean_ms : Option ℚ
  rtt_median_ms : Option ℚ
  conn_mean_ms : Option ℚ
  conn_median_ms : Option ℚ
  broadcast_mean_ms : Option ℚ
  broadcast_median_ms : Option ℚ
  throughput_mean_msg_s : Option ℚ
  throughput_max_msg_s : Option ℚ
  message_loss_rate_pct : Option PVal
  messages_lost_total : Option ℚ
  disconnect_count_total : Option ℚ
  clients_with_disconnects_pct : Option ℚ
deriving DecidableEq, Repr

/-- Summary row of one library: mean-of-means and median-of-medians for the
latency-class tables, the first row's `mean`/`max` for throughput, mean of
`total_loss_rate` and sum of `messages_lost_sum` for reliability, sum of
`disconnect_count_sum` and mean of `clients_with_disconnects_pct` for
stability; each block contributes nothing when the library has no rows in
its table. -/
def summaryRowFor (rtt conn broadcast : List StatRow) (tp : List ThroughStatRow)
    (rel : List RelStatRow) (stab : List StabStatRow) (lib : String) : SummaryRow :=
  let lrtt := rtt.filter (fun r => r.library = lib)
  let lconn := conn.filter (fun r => r.library = lib)
  let lbc := broadcast.filter (fun r => r.library = lib)
  let ltp := tp.filter (fun r => r.library = lib)
  let lrel := rel.filter (fun r => r.library = lib)
  let lstab := stab.filter (fun r => r.library = lib)
  { library := lib
    rtt_mean_ms := omean (lrtt.map (fun r => r.mean))
    rtt_median_ms := omedian (lrtt.map (fun r => r.median))
    conn_mean_ms := omean (lconn.map (fun r => r.mean))
    conn_median_ms := omedian (lconn.map (fun r => r.median))
    broadcast_mean_ms := omean (lbc.map (fun r => r.mean))
    broadcast_median_ms := omedian (lbc.map (fun r => r.median))
    throughput_mean_msg_s := ltp.head?.bind (fun r => r.mean)
    throughput_max_msg_s := ltp.head?.bind (fun r => r.max)
    message_loss_rate_pct :=
      match lrel with
      | [] => none
      | _ => some (pmean (lrel.map (fun r => r.total_loss_rate)))
    messages_lost_total :=
      match lrel with
      | [] => none
      | _ => some (lsum (lrel.map (fun r => r.messages_lost_sum)))
    disconnect_count_total :=
      match lstab with
      | [] => none
      | _ => some (lsum (lstab.map (fun r => r.disconnect_count_sum)))
    clients_with_disconnects_pct := lmean (lstab.map (fun r => r.clients_with_disconnects_pct)) }

/-- Libraries of the summary table: the sorted union of the `library`
values of every present input table (the reliability and stability tables
are optional). -/
def summaryLibs (rtt conn broadcast : List StatRow) (tp : List ThroughStatRow)
    (rel : Option (List RelStatRow)) (stab : Option (List StabStatRow)) : List String :=
  List.insertionSort (fun a b : String => a ≤ b)
    ((rtt.map (fun r => r.library) ++ conn.map (fun r => r.library) ++
      broadcast.map (fun r => r.library) ++ tp.map (fun r => r.library) ++
      (rel.getD []).map (fun r => r.library) ++
      (stab.getD []).map (fun r => r.library)).dedup)

/-- Source `create_summary_table`: one summary row per library of the
sorted union of the input tables' libraries. -/
def create_summary_table (rtt conn broadcast : List StatRow) (tp : List ThroughStatRow)
    (rel : Option (List RelStatRow)) (stab : Option (List StabStatRow)) : List SummaryRow :=
  (summaryLibs rtt conn broadcast tp rel stab).map
    (summaryRowFor rtt conn broadcast tp (rel.getD []) (stab.getD []))

/-!  Helper lemmas shared by the claim theorems. -/

theorem mem_groupKeys {rows : List ObsRow} {k : GKey} :
    k ∈ groupKeys rows ↔ k ∈ rows.map obsKey := by
  unfold groupKeys
  rw [List.mem_insertionSort]
  exact List.mem_dedup

theorem rows_ne_nil_of_mem_groupKeys {rows : List ObsRow} {k : GKey}
    (h : k ∈ groupKeys rows) : rows ≠ [] := by
  intro hrows
  subst hrows
  simp [groupKeys, List.dedup] at h

theorem aggLat_eq {rows : List ObsRow} (h : rows ≠ []) :
    aggregateLatencyStats rows = (groupKeys rows).map (statRowFor rows) := by
  cases rows with
  | nil => exact absurd rfl h
  | cons a t => rfl

theorem mem_aggLat {rows : List ObsRow} {row : StatRow} :
    row ∈ aggregateLatencyStats rows ↔ ∃ k ∈ groupKeys rows, statRowFor rows k = row := by
  cases rows with
  | nil =>
    constructor
    · intro h
      simp [aggregateLatencyStats] at h
    · rintro ⟨k, hk, -⟩
      exact absurd rfl (rows_ne_nil_of_mem_groupKeys hk)
  | cons a t =>
    rw [aggLat_eq (List.cons_ne_nil a t)]
    simp [List.mem_map]

theorem statRowFor_mem_agg {rows : List ObsRow} {k : GKey} (hk : k ∈ groupKeys rows) :
    statRowFor rows k ∈ aggregateLatencyStats rows :=
  mem_aggLat.2 ⟨k, hk, rfl⟩

theorem agg_row_key {rows : List ObsRow} {row : StatRow}
    (h : row ∈ aggregateLatencyStats rows) :
    row = statRowFor rows (row.library, row.client_count) := by
  obtain ⟨k, hk, hrow⟩ := mem_aggLat.1 h
  have hkey : (row.library, row.client_count) = k := by
    rw [← hrow]
    rfl
  rw [hkey, ← hrow]

theorem lvar_singleton {vs : List ℚ} (h : vs.length = 1) : lvar vs = none := by
  unfold lvar
  rw [h]
  norm_num

/-- Claim C7: for every latency-class observation table (`rtt_ms`,
`connection_time_ms`, `latency_ms`) and every `(library, client_count)`
group containing exactly one observation, the aggregated std is NaN
(sample standard deviation with the n-1 denominator is undefined there),
and it is propagated into the group's output row — which exists in the
aggregate — rather than coerced to zero. -/
theorem claim_C7_std_nan_single (rows : List ObsRow) (k : GKey)
    (hk : k ∈ groupKeys rows) (hone : (valuesFor rows k).length = 1) :
    (statRowFor rows k).stdSq = none ∧
    statRowFor rows k ∈ aggregate_rtt_stats rows ∧
    statRowFor rows k ∈ aggregate_connection_time_stats rows ∧
    statRowFor rows k ∈ aggregate_broadcast_latency_stats rows ∧
    (∀ row ∈ aggregate_rtt_stats rows,
      (row.library, row.client_count) = k → row.stdSq = none) ∧
    (∀ row ∈ aggregate_connection_time_stats rows,
      (row.library, row.client_count) = k → row.stdSq = none) ∧
    (∀ row ∈ aggregate_broadcast_latency_stats rows,
      (row.library, row.client_count) = k → row.stdSq = none) := by
  have hstd : (statRowFor rows k).stdSq = none := by
    show lvar (valuesFor rows k) = none
    exact lvar_singleton hone
  have hmem := statRowFor_mem_agg hk
  have hall : ∀ row ∈ aggregateLatencyStats rows,
      (row.library, row.client_count) = k → row.stdSq = none := by
    intro row hrow hkey
    rw [agg_row_key hrow, hkey]
    exact hstd
  exact ⟨hstd, hmem, hmem, hmem, hall, hall, hall⟩

/-- Witness for claim C7 at a one-observation table. -/
theorem claim_C7_witness :
    (statRowFor [⟨"a", 1, 5⟩] ("a", 1)).stdSq = none ∧
    statRowFor [⟨"a", 1, 5⟩] ("a", 1) ∈ aggregate_rtt_stats [⟨"a", 1, 5⟩] := by
  have h := claim_C7_std_nan_single [⟨"a", 1, 5⟩] ("a", 1) (by decide) (by decide)
  exact ⟨h.1, h.2.1⟩

/-- Claim C8: for every non-empty observation table and every grouping key
present in it, the `mean`, `median`, `min`, `max` and `count` of the
aggregate row of that key equal the same statistics computed directly on
the subset of input rows having that key (aggregate-then-filter equals
filter-then-compute), for each of the three latency-class aggregators. -/
theorem claim_C8_agg_filter_commute (rows : List ObsRow) (k : GKey)
    (_hne : rows ≠ []) (hk : k ∈ groupKeys rows) :
    aggregate_connection_time_stats rows = aggregate_rtt_stats rows ∧
    aggregate_broadcast_latency_stats rows = aggregate_rtt_stats rows ∧
    statRowFor rows k ∈ aggregate_rtt_stats rows ∧
    (∀ row ∈ aggregate_rtt_stats rows, (row.library, row.client_count) = k →
      row.mean = lmean (valuesFor rows k) ∧
      row.median = lmedian (valuesFor rows k) ∧
      row.min = lmin (valuesFor rows k) ∧
      row.max = lmax (valuesFor rows k) ∧
      row.count = (valuesFor rows k).length) := by
  refine ⟨rfl, rfl, statRowFor_mem_agg hk, ?_⟩
  intro row hrow hkey
  rw [agg_row_key hrow, hkey]
  exact ⟨rfl, rfl, rfl, rfl, rfl⟩

/-- Witness for claim C8 at a two-observation table. -/
theorem claim_C8_witness :
    statRowFor [⟨"a", 1, 5⟩, ⟨"a", 1, 7⟩] ("a", 1) ∈
      aggregate_rtt_stats [⟨"a", 1, 5⟩, ⟨"a", 1, 7⟩] ∧
    (statRowFor [⟨"a", 1, 5⟩, ⟨"a", 1, 7⟩] ("a", 1)).mean =
      lmean (valuesFor [⟨"a", 1, 5⟩, ⟨"a", 1, 7⟩] ("a", 1)) := by
  have h := claim_C8_agg_filter_commute [⟨"a", 1, 5⟩, ⟨"a", 1, 7⟩] ("a", 1)
    (by decide) (by decide)
  exact ⟨h.2.2.1, ((h.2.2.2 _ h.2.2.1) rfl).1⟩

/-- Claim C6: every aggregator — RTT, connection-time, broadcast-latency,
throughput (both the spec's by-library summary, modelled above because the
module lacks it, and the module's throughput-vs-load routine), reliability,
stability, resources (per-server and by-phase), and the derived-metric
computations (degradation and leak detection) — maps an empty input table
to an empty output table and raises no error (totality of the embedding). -/
theorem claim_C6_empty_to_empty :
    aggregate_rtt_stats [] = [] ∧
    aggregate_connection_time_stats [] = [] ∧
    aggregate_broadcast_latency_stats [] = [] ∧
    calculate_throughput_vs_load [] = [] ∧
    aggregate_throughput_stats [] = [] ∧
    aggregate_reliability_stats [] = [] ∧
    aggregate_stability_stats [] = [] ∧
    calculate_performance_degradation [] = [] ∧
    (∀ cols : ResourceCols, aggregate_resource_stats ⟨cols, []⟩ = []) ∧
    (∀ cols : ResourceCols, aggregate_memory_by_phase ⟨cols, []⟩ = []) ∧
    (∀ (pval : PvalFun) (cols : ResourceCols), detect_memory_leaks pval ⟨cols, []⟩ = []) :=
  ⟨rfl, rfl, rfl, rfl, rfl, rfl, rfl, rfl, fun _ => rfl, fun _ => rfl, fun _ _ => rfl⟩

theorem mem_relKeys {rows : List RelRow} {k : GKey} :
    k ∈ relKeys rows ↔ k ∈ rows.map relKey := by
  unfold relKeys
  rw [List.mem_insertionSort]
  exact List.mem_dedup

theorem rows_ne_nil_of_mem_relKeys {rows : List RelRow} {k : GKey}
    (h : k ∈ relKeys rows) : rows ≠ [] := by
  intro hrows
  subst hrows
  simp [relKeys, List.dedup] at h

theorem relAgg_eq {rows : List RelRow} (h : rows ≠ []) :
    aggregate_reliability_stats rows = (relKeys rows).map (relStatRowFor rows) := by
  cases rows with
  | nil => exact absurd rfl h
  | cons a t => rfl

theorem mem_relAgg {rows : List RelRow} {row : RelStatRow} :
    row ∈ aggregate_reliability_stats rows ↔
      ∃ k ∈ relKeys rows, relStatRowFor rows k = row := by
  cases rows with
  | nil =>
    constructor
    · intro h
      simp [aggregate_reliability_stats] at h
    · rintro ⟨k, hk, -⟩
      exact absurd rfl (rows_ne_nil_of_mem_relKeys hk)
  | cons a t =>
    rw [relAgg_eq (List.cons_ne_nil a t)]
    simp [List.mem_map]

theorem relStatRowFor_mem {rows : List RelRow} {k : GKey} (hk : k ∈ relKeys rows) :
    relStatRowFor rows k ∈ aggregate_reliability_stats rows :=
  mem_relAgg.2 ⟨k, hk, rfl⟩

theorem relAgg_row_key {rows : List RelRow} {row : RelStatRow}
    (h : row ∈ aggregate_reliability_stats rows) :
    row = relStatRowFor rows (row.library, row.client_count) := by
  obtain ⟨k, hk, hrow⟩ := mem_relAgg.1 h
  have hkey : (row.library, row.client_count) = k := by
    rw [← hrow]
    rfl
  rw [hkey, ← hrow]

/-- Counterexample to claim C3 as stated: on the one-row table with
`messages_sent = 3` and `messages_lost = 1`, the reliability aggregator's
`total_loss_rate` is `33.33` (the ratio rounded to two decimal places),
which differs from the exact value `100 * 1 / 3` the claim asserts. -/
theorem claim_C3_counterexample :
    aggregate_reliability_stats [⟨"a", 1, 3, 2, 1, 0⟩] =
      [{ library := "a", client_count := 1,
         messages_sent_sum := 3, messages_sent_mean := some 3,
         messages_received_sum := 2, messages_received_mean := some 2,
         messages_lost_sum := 1, messages_lost_mean := some 1,
         loss_rate_percent_mean := some 0, loss_rate_percent_median := some 0,
         loss_rate_percent_max := some 0,
         total_loss_rate := PVal.num (3333 / 100) }] ∧
    PVal.num ((3333 : ℚ) / 100) ≠ PVal.num (100 * 1 / 3) := by
  constructor
  · norm_num [aggregate_reliability_stats, relKeys, relStatRowFor, relRowsFor,
      relKey, List.insertionSort, List.orderedInsert, List.dedup, List.filter,
      lsum, lmean, lmedian, medianSorted, lmax, pdiv, pscale, pround, roundTo,
      rhe]
  · intro h
    rw [PVal.num.injEq] at h
    norm_num at h

/-- Claim C3, amended: for every reliability input table and every
`(library, client_count)` key present in it, the aggregate row's
`total_loss_rate` equals `100 * sum(messages_lost) / sum(messages_sent)`
rounded to two decimal places (half to even) when `sum(messages_sent)` is
nonzero; when `sum(messages_sent)` is zero it equals NaN if
`sum(messages_lost)` is also zero and otherwise the infinity of the sign
of `sum(messages_lost)` — in every case without raising an exception. -/
theorem claim_C3_amended (rows : List RelRow) (k : GKey) (hk : k ∈ relKeys rows) :
    relStatRowFor rows k ∈ aggregate_reliability_stats rows ∧
    (∀ row ∈ aggregate_reliability_stats rows, (row.library, row.client_count) = k →
      row = relStatRowFor rows k) ∧
    ((relStatRowFor rows k).messages_sent_sum ≠ 0 →
      (relStatRowFor rows k).total_loss_rate =
        PVal.num (roundTo 2 ((relStatRowFor rows k).messages_lost_sum /
          (relStatRowFor rows k).messages_sent_sum * 100))) ∧
    ((relStatRowFor rows k).messages_sent_sum = 0 →
      ((relStatRowFor rows k).messages_lost_sum = 0 →
        (relStatRowFor rows k).total_loss_rate = PVal.nan) ∧
      (0 < (relStatRowFor rows k).messages_lost_sum →
        (relStatRowFor rows k).total_loss_rate = PVal.pinf) ∧
      ((relStatRowFor rows k).messages_lost_sum < 0 →
        (relStatRowFor rows k).total_loss_rate = PVal.ninf)) := by
  refine ⟨relStatRowFor_mem hk, ?_, ?_, ?_⟩
  · intro row hrow hkey
    rw [relAgg_row_key hrow, hkey]
  · intro hsent
    have hs : lsum (List.map (fun r => r.messages_sent) (relRowsFor rows k)) ≠ 0 := hsent
    show pround 2 (pscale 100 (pdiv _ _)) = _
    rw [pdiv, if_neg hs, pscale, pround]
    rw [PVal.num.injEq]
    ring_nf
    rfl
  · intro hsent
    have hs : lsum (List.map (fun r => r.messages_sent) (relRowsFor rows k)) = 0 := hsent
    refine ⟨?_, ?_, ?_⟩
    · intro hlost
      have hl : lsum (List.map (fun r => r.messages_lost) (relRowsFor rows k)) = 0 := hlost
      show pround 2 (pscale 100 (pdiv _ _)) = _
      rw [pdiv, if_pos hs, if_pos hl]
      rfl
    · intro hlost
      have hl : 0 < lsum (List.map (fun r => r.messages_lost) (relRowsFor rows k)) := hlost
      show pround 2 (pscale 100 (pdiv _ _)) = _
      rw [pdiv, if_pos hs, if_neg (by exact hl.ne'), if_pos hl]
      rfl
    · intro hlost
      have hl : lsum (List.map (fun r => r.messages_lost) (relRowsFor rows k)) < 0 := hlost
      show pround 2 (pscale 100 (pdiv _ _)) = _
      rw [pdiv, if_pos hs, if_neg (by exact ne_of_lt hl),
        if_neg (by exact not_lt_of_gt hl)]
      rfl

/-- Witness for the amended claim C3 at a one-row table with a nonzero
message total. -/
theorem claim_C3_amended_witness :
    relStatRowFor [⟨"a", 1, 3, 2, 1, 0⟩] ("a", 1) ∈
      aggregate_reliability_stats [⟨"a", 1, 3, 2, 1, 0⟩] ∧
    (relStatRowFor [⟨"a", 1, 3, 2, 1, 0⟩] ("a", 1)).total_loss_rate =
      PVal.num (roundTo 2 ((1 : ℚ) / 3 * 100)) := by
  have h := claim_C3_amended [⟨"a", 1, 3, 2, 1, 0⟩] ("a", 1) (by decide)
  have hsent : (relStatRowFor [⟨"a", 1, 3, 2, 1, 0⟩] ("a", 1)).messages_sent_sum = 3 := by
    norm_num [relStatRowFor, relRowsFor, relKey, List.filter, lsum]
  have hlost : (relStatRowFor [⟨"a", 1, 3, 2, 1, 0⟩] ("a", 1)).messages_lost_sum = 1 := by
    norm_num [relStatRowFor, relRowsFor, relKey, List.filter, lsum]
  have := h.2.2.1 (by rw [hsent]; norm_num)
  rw [hsent, hlost] at this
  exact ⟨h.1, this⟩

theorem deg_eq {rows : List DegInRow} (h : rows ≠ []) :
    calculate_performance_degradation rows =
      ((rows.map (fun r => r.library)).dedup).filterMap (fun lib =>
        let g := rows.filter (fun r => r.library = lib)
        if g.length < 2 then none else some (degRowFor g lib)) := by
  cases rows with
  | nil => exact absurd rfl h
  | cons a t => rfl

theorem mem_deg {rows : List DegInRow} {row : DegRow} :
    row ∈ calculate_performance_degradation rows ↔
      ∃ lib ∈ (rows.map (fun r => r.library)).dedup,
        ¬ (rows.filter (fun r => r.library = lib)).length < 2 ∧
        degRowFor (rows.filter (fun r => r.library = lib)) lib = row := by
  cases rows with
  | nil =>
    simp [calculate_performance_degradation]
  | cons a t =>
    rw [deg_eq (List.cons_ne_nil a t), List.mem_filterMap]
    constructor
    · rintro ⟨lib, hlib, hsome⟩
      by_cases hlen : ((a :: t).filter (fun r => r.library = lib)).length < 2
      · rw [if_pos hlen] at hsome
        exact absurd hsome (by simp)
      · rw [if_neg hlen] at hsome
        exact ⟨lib, hlib, hlen, by injection hsome⟩
    · rintro ⟨lib, hlib, hlen, hrow⟩
      exact ⟨lib, hlib, by rw [if_neg hlen, hrow]⟩

theorem degRowFor_library (g : List DegInRow) (lib : String) :
    (degRowFor g lib).library = lib := rfl

/-- Counterexample to claim C4 as stated: a library with two aggregate rows
at the same `client_count` (a single distinct load level) should, per the
claim, produce no degradation row, but the source's skip test counts rows,
not distinct load levels, and emits a row. -/
theorem claim_C4_counterexample :
    calculate_performance_degradation [⟨"a", 5, 1⟩, ⟨"a", 5, 1⟩] =
      [{ library := "a", baseline_clients := 5, baseline_rtt_ms := 1,
         peak_clients := 5, peak_rtt_ms := 1, total_degradation_pct := 0,
         degradation_per_100_clients_pct := 0 }] ∧
    [({ library := "a", baseline_clients := 5, baseline_rtt_ms := 1,
        peak_clients := 5, peak_rtt_ms := 1, total_degradation_pct := 0,
        degradation_per_100_clients_pct := 0 } : DegRow)] ≠ [] := by
  constructor
  · norm_num [calculate_performance_degradation, degRowFor, iminD, imaxD,
      List.dedup, List.filter, List.filterMap, roundTo, rhe]
  · simp

/-- Claim C4, amended: for every RTT aggregate table and every library with
at least two rows (regardless of whether their `client_count`s are
distinct), the output row has baseline the first row at the minimal
`client_count` and peak the first row at the maximal one,
`total_degradation_pct = round((peak.mean - baseline.mean) / baseline.mean * 100, 2)`
when the baseline mean is positive and zero otherwise, and
`degradation_per_100_clients_pct` the total degradation divided by
`(peak.client_count - baseline.client_count) / 100` and rounded to two
places when the peak load exceeds the baseline load, zero otherwise;
libraries with fewer than two rows produce no row at all. -/
theorem claim_C4_amended (rows : List DegInRow) (lib : String) :
    ((rows.filter (fun r => r.library = lib)).length < 2 →
      ∀ row ∈ calculate_performance_degradation rows, row.library ≠ lib) ∧
    (2 ≤ (rows.filter (fun r => r.library = lib)).length →
      (degRowFor (rows.filter (fun r => r.library = lib)) lib ∈
        calculate_performance_degradation rows ∧
      (let g := rows.filter (fun r => r.library = lib)
       let bc := iminD (g.map (fun r => r.client_count))
       let pc := imaxD (g.map (fun r => r.client_count))
       let baseline := ((g.filter (fun r => r.client_count = bc)).map (fun r => r.mean)).headD 0
       let peak := ((g.filter (fun r => r.client_count = pc)).map (fun r => r.mean)).headD 0
       let d := if 0 < baseline then (peak - baseline) / baseline * 100 else 0
       (degRowFor g lib).library = lib ∧
       (degRowFor g lib).baseline_clients = bc ∧
       (degRowFor g lib).baseline_rtt_ms = roundTo 2 baseline ∧
       (degRowFor g lib).peak_clients = pc ∧
       (degRowFor g lib).peak_rtt_ms = roundTo 2 peak ∧
       (degRowFor g lib).total_degradation_pct = roundTo 2 d ∧
       (degRowFor g lib).degradation_per_100_clients_pct =
         roundTo 2 (if bc < pc then d / (((pc - bc : ℤ) : ℚ) / 100) else 0)))) := by
  constructor
  · intro hlen row hrow hlib
    obtain ⟨lib', hlib', hlen', hrow'⟩ := mem_deg.1 hrow
    have : lib' = lib := by
      rw [← hlib, ← hrow']
      rfl
    rw [this] at hlen'
    exact hlen' hlen
  · intro hlen
    have hne : rows.filter (fun r => r.library = lib) ≠ [] := by
      intro hnil
      rw [hnil] at hlen
      simp at hlen
    have hmem : lib ∈ (rows.map (fun r => r.library)).dedup := by
      rw [List.mem_dedup, List.mem_map]
      cases hfe : rows.filter (fun r => r.library = lib) with
      | nil => exact absurd hfe hne
      | cons r t =>
        have hr : r ∈ rows.filter (fun r => r.library = lib) := by
          rw [hfe]
          exact List.mem_cons_self r t
        have hrr := List.mem_filter.1 hr
        exact ⟨r, hrr.1, by simpa using hrr.2⟩
    refine ⟨mem_deg.2 ⟨lib, hmem, by omega, rfl⟩, ?_⟩
    exact ⟨rfl, rfl, rfl, rfl, rfl, rfl, rfl⟩

/-- Witness for the amended claim C4 at a two-load-level table. -/
theorem claim_C4_amended_witness :
    degRowFor [⟨"a", 10, 50⟩, ⟨"a", 100, 150⟩] "a" ∈
      calculate_performance_degradation [⟨"a", 10, 50⟩, ⟨"a", 100, 150⟩] := by
  have h := (claim_C4_amended [⟨"a", 10, 50⟩, ⟨"a", 100, 150⟩] "a").2 (by decide)
  have hfilter : ([⟨"a", 10, 50⟩, ⟨"a", 100, 150⟩] : List DegInRow).filter
      (fun r => r.library = "a") = [⟨"a", 10, 50⟩, ⟨"a", 100, 150⟩] := by decide
  exact hfilter ▸ h.1

theorem mem_loadKeys {rows : List ThroughRow} {k : TKey} :
    k ∈ loadKeys rows ↔ k ∈ rows.map loadKey := by
  unfold loadKeys
  rw [List.mem_insertionSort]
  exact List.mem_dedup

theorem ctl_empty_act {rows : List ThroughRow}
    (h : rows.filter (fun r => 0 < r.messages_per_second) = []) :
    calculate_throughput_vs_load rows = [] := by
  cases rows with
  | nil => rfl
  | cons a t =>
    simp only [calculate_throughput_vs_load]
    rw [h]

theorem ctl_eq {rows : List ThroughRow}
    (hrows : rows ≠ [])
    (hact : rows.filter (fun r => 0 < r.messages_per_second) ≠ []) :
    calculate_throughput_vs_load rows =
      (loadKeys (rows.filter (fun r => 0 < r.messages_per_second))).map
        (loadRowFor (rows.filter (fun r => 0 < r.messages_per_second))) := by
  cases rows with
  | nil => exact absurd rfl hrows
  | cons a t => simp only [calculate_throughput_vs_load]

theorem mem_ctl {rows : List ThroughRow} {row : ThroughOutRow} :
    row ∈ calculate_throughput_vs_load rows ↔
      ∃ k ∈ loadKeys (rows.filter (fun r => 0 < r.messages_per_second)),
        loadRowFor (rows.filter (fun r => 0 < r.messages_per_second)) k = row := by
  by_cases hact : rows.filter (fun r => 0 < r.messages_per_second) = []
  · rw [ctl_empty_act hact, hact]
    simp [loadKeys, List.dedup]
  · have hrows : rows ≠ [] := by
      intro h
      rw [h] at hact
      exact hact rfl
    rw [ctl_eq hrows hact]
    simp [List.mem_map]

theorem ctl_row_key {rows : List ThroughRow} {row : ThroughOutRow}
    (h : row ∈ calculate_throughput_vs_load rows) :
    row = loadRowFor (rows.filter (fun r => 0 < r.messages_per_second))
      (row.library, row.client_count) := by
  obtain ⟨k, hk, hrow⟩ := mem_ctl.1 h
  have hkey : (row.library, row.client_count) = k := by
    rw [← hrow]
    rfl
  rw [hkey, ← hrow]

/-- Counterexample to claim C2 as stated: on a one-sample series with
positive throughput but zero `active_connections`, the claim's extraction
(filter on `active_connections > 0`, phase isolation, exact grouping)
yields the empty table, while the source routine retains the sample, rounds
the zero connection count, and emits one row. -/
theorem claim_C2_counterexample :
    calculate_throughput_vs_load [⟨"a", 0, 5, 0⟩] =
      [{ library := "a", client_count := 0, mean_throughput := 5 }] ∧
    throughputCurveClaim [⟨"a", 0, 5, 0⟩] = [] := by
  constructor
  · norm_num [calculate_throughput_vs_load, loadKeys, loadRowFor, loadKey,
      bucket10, rhe, List.insertionSort, List.orderedInsert, List.dedup,
      List.filter, lsum]
  · norm_num [throughputCurveClaim, firstPhase, List.insertionSort,
      List.filter, List.dedup]

/-- Claim C2, amended: the source's throughput-vs-load extraction filters
only on `messages_per_second > 0` (samples with zero or negative
`active_connections` are retained), performs no phase segmentation, groups
by the library and `active_connections` rounded to the nearest multiple of
ten, and averages `messages_per_second`, yielding one row per distinct
`(library, rounded level)` with that rounded level as `client_count`; the
output is empty when no sample survives the filter. -/
theorem claim_C2_amended (rows : List ThroughRow) :
    (rows.filter (fun r => 0 < r.messages_per_second) = [] →
      calculate_throughput_vs_load rows = []) ∧
    (∀ k ∈ loadKeys (rows.filter (fun r => 0 < r.messages_per_second)),
      loadRowFor (rows.filter (fun r => 0 < r.messages_per_second)) k ∈
        calculate_throughput_vs_load rows ∧
      (∀ row ∈ calculate_throughput_vs_load rows,
        (row.library, row.client_count) = k →
        row = loadRowFor (rows.filter (fun r => 0 < r.messages_per_second)) k) ∧
      (loadRowFor (rows.filter (fun r => 0 < r.messages_per_second)) k).mean_throughput =
        lsum (((rows.filter (fun r => 0 < r.messages_per_second)).filter
            (fun r => loadKey r = k)).map (fun r => r.messages_per_second)) /
          ((((rows.filter (fun r => 0 < r.messages_per_second)).filter
            (fun r => loadKey r = k)).map (fun r => r.messages_per_second)).length : ℚ)) := by
  refine ⟨ctl_empty_act, ?_⟩
  intro k hk
  have hact : rows.filter (fun r => 0 < r.messages_per_second) ≠ [] := by
    intro h
    rw [h] at hk
    simp [loadKeys, List.dedup] at hk
  have hrows : rows ≠ [] := by
    intro h
    rw [h] at hact
    exact hact rfl
  refine ⟨?_, ?_, rfl⟩
  · rw [ctl_eq hrows hact]
    exact List.mem_map.2 ⟨k, hk, rfl⟩
  · intro row hrow hkey
    rw [ctl_row_key hrow, hkey]

/-- Witness for the amended claim C2 at a two-sample series whose rounded
load levels coincide. -/
theorem claim_C2_amended_witness :
    loadRowFor [⟨"a", 0, 5, 8⟩, ⟨"a", 1, 7, 12⟩] ("a", 10) ∈
      calculate_throughput_vs_load [⟨"a", 0, 5, 8⟩, ⟨"a", 1, 7, 12⟩] := by
  have h := (claim_C2_amended [⟨"a", 0, 5, 8⟩, ⟨"a", 1, 7, 12⟩]).2 ("a", 10)
  have hfilter : ([⟨"a", 0, 5, 8⟩, ⟨"a", 1, 7, 12⟩] : List ThroughRow).filter
      (fun r => 0 < r.messages_per_second) = [⟨"a", 0, 5, 8⟩, ⟨"a", 1, 7, 12⟩] := by
    norm_num [List.filter]
  have hkmem : ("a", (10 : ℚ)) ∈ loadKeys [⟨"a", 0, 5, 8⟩, ⟨"a", 1, 7, 12⟩] := by
    have hb8 : bucket10 8 = 10 := by norm_num [bucket10, rhe]
    have hb12 : bucket10 12 = 10 := by norm_num [bucket10, rhe]
    rw [mem_loadKeys]
    norm_num [loadKey, hb8, hb12]
  have h2 := h (by rw [hfilter]; exact hkmem)
  exact (hfilter ▸ h2).1

theorem filterMap_id_nil {l : List (Option ℚ)} (h : ∀ x ∈ l, x = none) :
    l.filterMap id = [] := by
  induction l with
  | nil => rfl
  | cons a t ih =>
    have ha := h a (List.mem_cons_self a t)
    subst ha
    show List.filterMap id t = []
    exact ih (fun x hx => h x (List.mem_cons_of_mem none hx))

theorem omean_none {α : Type} {l : List α} {f : α → Option ℚ}
    (h : ∀ x ∈ l, f x = none) : omean (l.map f) = none := by
  unfold omean
  rw [filterMap_id_nil (by simpa using fun x hx => h x hx)]
  rfl

theorem omax_none {α : Type} {l : List α} {f : α → Option ℚ}
    (h : ∀ x ∈ l, f x = none) : omax (l.map f) = none := by
  unfold omax
  rw [filterMap_id_nil (by simpa using fun x hx => h x hx)]
  rfl

theorem omin_none {α : Type} {l : List α} {f : α → Option ℚ}
    (h : ∀ x ∈ l, f x = none) : omin (l.map f) = none := by
  unfold omin
  rw [filterMap_id_nil (by simpa using fun x hx => h x hx)]
  rfl

theorem orange_none {α : Type} {l : List α} {f : α → Option ℚ}
    (h : ∀ x ∈ l, f x = none) : orange (l.map f) = none := by
  unfold orange
  rw [omax_none h, omin_none h]

theorem ite_none_right {c : Prop} [Decidable c] {x : Option ℚ} (h : x = none) :
    (if c then x else none) = none := by
  split
  · exact h
  · rfl

theorem mem_resAgg {t : ResourceTable} {row : ResSummaryRow} :
    row ∈ aggregate_resource_stats t ↔
      ∃ s ∈ (t.rows.map (fun r => r.server)).dedup,
        resSummaryRowFor t.cols t.rows s = row := by
  obtain ⟨cols, rows⟩ := t
  cases rows with
  | nil => simp [aggregate_resource_stats, List.dedup]
  | cons a t' => simp [aggregate_resource_stats, List.mem_map]

theorem memPhase_decomp {t : ResourceTable} {row : MemPhaseRow}
    (h : row ∈ aggregate_memory_by_phase t) :
    ∃ s, row ∈ memGoRows t.cols (t.rows.filter isActive) s ∨
         row ∈ memNodeRows t.cols (t.rows.filter isActive) s := by
  obtain ⟨cols, rows⟩ := t
  cases rows with
  | nil => exact absurd h (List.not_mem_nil row)
  | cons a t' =>
    simp only [aggregate_memory_by_phase] at h
    by_cases hac : cols.hasActive
    · rw [if_pos hac] at h
      rcases hfe : (a :: t').filter isActive with _ | ⟨b, u⟩
      · rw [hfe] at h
        exact absurd h (List.not_mem_nil row)
      · rw [hfe] at h
        rcases List.mem_append.1 h with hgo | hnode
        · obtain ⟨s, -, hs⟩ := List.mem_flatMap.1 hgo
          exact ⟨s, Or.inl hs⟩
        · obtain ⟨s, -, hs⟩ := List.mem_flatMap.1 hnode
          exact ⟨s, Or.inr hs⟩
    · rw [if_neg hac] at h
      exact absurd h (List.not_mem_nil row)

theorem mem_memGoRows {cols : ResourceCols} {act : List ResourceRow} {s : String}
    {row : MemPhaseRow} (h : row ∈ memGoRows cols act s) :
    memIsGo cols (act.filter (fun r => r.server = s)) = true ∧
    ∃ b, row = goPhaseRow s (act.filter (fun r => r.server = s)) b := by
  simp only [memGoRows] at h
  by_cases hgo : memIsGo cols (act.filter (fun r => r.server = s)) = true
  · rw [if_pos hgo] at h
    obtain ⟨b, -, hb⟩ := List.mem_map.1 h
    exact ⟨hgo, b, hb.symm⟩
  · rw [if_neg hgo] at h
    exact absurd h (List.not_mem_nil row)

theorem mem_memNodeRows {cols : ResourceCols} {act : List ResourceRow} {s : String}
    {row : MemPhaseRow} (h : row ∈ memNodeRows cols act s) :
    memIsNode cols (act.filter (fun r => r.server = s)) = true ∧
    ∃ b, row = nodePhaseRow cols s (act.filter (fun r => r.server = s)) b := by
  simp only [memNodeRows] at h
  by_cases hgo : memIsGo cols (act.filter (fun r => r.server = s)) = true
  · rw [if_pos hgo] at h
    exact absurd h (List.not_mem_nil row)
  · rw [if_neg hgo] at h
    by_cases hnode : memIsNode cols (act.filter (fun r => r.server = s)) = true
    · rw [if_pos hnode] at h
      obtain ⟨b, -, hb⟩ := List.mem_map.1 h
      exact ⟨hnode, b, hb.symm⟩
    · rw [if_neg hnode] at h
      exact absurd h (List.not_mem_nil row)

theorem cells_none_of_filter {rows : List ResourceRow} {s : String}
    {f : ResourceRow → Option ℚ} (hf : ∀ r ∈ rows, r.server = s → f r = none) :
    ∀ x ∈ rows.filter (fun r => r.server = s), f x = none := by
  intro x hx
  have hx' := List.mem_filter.1 hx
  exact hf x hx'.1 (by simpa using hx'.2)

theorem cells_none_of_two_filters {rows : List ResourceRow} {s : String}
    {f : ResourceRow → Option ℚ} (hf : ∀ r ∈ rows, r.server = s → f r = none) :
    ∀ x ∈ (rows.filter isActive).filter (fun r => r.server = s), f x = none := by
  intro x hx
  have hx' := List.mem_filter.1 hx
  have hx'' := List.mem_filter.1 hx'.1
  exact hf x hx''.1 (by simpa using hx'.2)

/-- Claim C5: resource reconciliation never fabricates the other style's
fields.  For every resource table `t` and server `s`: if every row of `s`
has all event-loop cells null (the situation in which the per-server data
classifies `s` as goroutine-style), then neither the per-server summary row
of `s` nor any of its phase-bucketed memory rows carries a non-null
event-loop field; symmetrically, if every row of `s` has all goroutine
cells null, no output row of `s` carries a non-null goroutine field.
Absent fields are `none` (nullable), never zero. -/
theorem claim_C5_no_fabricated_fields (t : ResourceTable) (s : String) :
    ((∀ r ∈ t.rows, r.server = s →
        r.cpu_user_ms = none ∧ r.cpu_system_ms = none ∧ r.cpu_percent = none ∧
        r.memory_rss_mb = none ∧ r.memory_heap_used_mb = none ∧
        r.memory_heap_total_mb = none ∧ r.memory_external_mb = none) →
      (∀ row ∈ aggregate_resource_stats t, row.server = s →
        row.cpu_user_ms_mean = none ∧ row.cpu_user_ms_max = none ∧
        row.cpu_system_ms_mean = none ∧ row.cpu_system_ms_max = none ∧
        row.cpu_percent_mean = none ∧ row.cpu_percent_max = none ∧
        row.memory_rss_mb_mean = none ∧ row.memory_rss_mb_max = none ∧
        row.memory_heap_used_mb_mean = none ∧ row.memory_heap_used_mb_max = none) ∧
      (∀ row ∈ aggregate_memory_by_phase t, row.server = s →
        row.memory_rss_mb_mean = none ∧ row.memory_heap_used_mb_mean = none ∧
        row.memory_heap_total_mb_mean = none ∧ row.memory_external_mb_mean = none)) ∧
    ((∀ r ∈ t.rows, r.server = s →
        r.cpu_goroutines = none ∧ r.memory_alloc_mb = none ∧
        r.memory_sys_mb = none ∧ r.gc_count = none) →
      (∀ row ∈ aggregate_resource_stats t, row.server = s →
        row.cpu_goroutines_mean = none ∧ row.cpu_goroutines_max = none ∧
        row.memory_alloc_mb_mean = none ∧ row.memory_alloc_mb_max = none ∧
        row.memory_sys_mb_mean = none ∧ row.memory_sys_mb_max = none ∧
        row.gc_count_total = none) ∧
      (∀ row ∈ aggregate_memory_by_phase t, row.server = s →
        row.memory_alloc_mb_mean = none ∧ row.memory_sys_mb_mean = none ∧
        row.gc_count = none)) := by
  constructor
  · intro hnull
    constructor
    · intro row hrow hsv
      obtain ⟨s', hs', hrw⟩ := mem_resAgg.1 hrow
      have hss : s' = s := by
        rw [← hsv, ← hrw]
        rfl
      subst hss
      subst hsv
      rw [← hrw]
      refine ⟨?_, ?_, ?_, ?_, ?_, ?_, ?_, ?_, ?_, ?_⟩
      · exact ite_none_right (omean_none
          (cells_none_of_filter (fun r hr hv => (hnull r hr hv).1)))
      · exact ite_none_right (omax_none
          (cells_none_of_filter (fun r hr hv => (hnull r hr hv).1)))
      · exact ite_none_right (omean_none
          (cells_none_of_filter (fun r hr hv => (hnull r hr hv).2.1)))
      · exact ite_none_right (omax_none
          (cells_none_of_filter (fun r hr hv => (hnull r hr hv).2.1)))
      · exact ite_none_right (omean_none
          (cells_none_of_filter (fun r hr hv => (hnull r hr hv).2.2.1)))
      · exact ite_none_right (omax_none
          (cells_none_of_filter (fun r hr hv => (hnull r hr hv).2.2.1)))
      · exact ite_none_right (omean_none
          (cells_none_of_filter (fun r hr hv => (hnull r hr hv).2.2.2.1)))
      · exact ite_none_right (omax_none
          (cells_none_of_filter (fun r hr hv => (hnull r hr hv).2.2.2.1)))
      · exact ite_none_right (omean_none
          (cells_none_of_filter (fun r hr hv => (hnull r hr hv).2.2.2.2.1)))
      · exact ite_none_right (omax_none
          (cells_none_of_filter (fun r hr hv => (hnull r hr hv).2.2.2.2.1)))
    · intro row hrow hsv
      obtain ⟨s', hor⟩ := memPhase_decomp hrow
      rcases hor with hgo | hnode
      · obtain ⟨-, b, hb⟩ := mem_memGoRows hgo
        subst hb
        exact ⟨rfl, rfl, rfl, rfl⟩
      · obtain ⟨hisnode, b, hb⟩ := mem_memNodeRows hnode
        have hss : s' = s := by
          rw [← hsv, hb]
          rfl
        subst hss
        exfalso
        have hany := (Bool.and_eq_true_iff.1 hisnode).2
        obtain ⟨x, hx, hxs⟩ := List.any_eq_true.1 hany
        have hxnone := cells_none_of_two_filters
          (fun r hr hv => (hnull r hr hv).2.2.2.1) x hx
        rw [hxnone] at hxs
        exact Bool.false_ne_true hxs
  · intro hnull
    constructor
    · intro row hrow hsv
      obtain ⟨s', hs', hrw⟩ := mem_resAgg.1 hrow
      have hss : s' = s := by
        rw [← hsv, ← hrw]
        rfl
      subst hss
      subst hsv
      rw [← hrw]
      refine ⟨?_, ?_, ?_, ?_, ?_, ?_, ?_⟩
      · exact ite_none_right (omean_none
          (cells_none_of_filter (fun r hr hv => (hnull r hr hv).1)))
      · exact ite_none_right (omax_none
          (cells_none_of_filter (fun r hr hv => (hnull r hr hv).1)))
      · exact ite_none_right (omean_none
          (cells_none_of_filter (fun r hr hv => (hnull r hr hv).2.1)))
      · exact ite_none_right (omax_none
          (cells_none_of_filter (fun r hr hv => (hnull r hr hv).2.1)))
      · exact ite_none_right (omean_none
          (cells_none_of_filter (fun r hr hv => (hnull r hr hv).2.2.1)))
      · exact ite_none_right (omax_none
          (cells_none_of_filter (fun r hr hv => (hnull r hr hv).2.2.1)))
      · exact ite_none_right (orange_none
          (cells_none_of_filter (fun r hr hv => (hnull r hr hv).2.2.2)))
    · intro row hrow hsv
      obtain ⟨s', hor⟩ := memPhase_decomp hrow
      rcases hor with hgo | hnode
      · obtain ⟨hisgo, b, hb⟩ := mem_memGoRows hgo
        have hss : s' = s := by
          rw [← hsv, hb]
          rfl
        subst hss
        exfalso
        have hany := (Bool.and_eq_true_iff.1 hisgo).2
        obtain ⟨x, hx, hxs⟩ := List.any_eq_true.1 hany
        have hxnone := cells_none_of_two_filters
          (fun r hr hv => (hnull r hr hv).2.1) x hx
        rw [hxnone] at hxs
        exact Bool.false_ne_true hxs
      · obtain ⟨-, b, hb⟩ := mem_memNodeRows hnode
        subst hb
        exact ⟨rfl, rfl, rfl⟩

/-- Witness table for claim C5: a mixed-schema table (every column present)
holding one goroutine-style server whose event-loop cells are all null. -/
def c5cols : ResourceCols :=
  ⟨true, true, true, true, true, true, true, true, true, true⟩

/-- Witness rows for claim C5. -/
def c5rows : List ResourceRow :=
  [⟨"g", some 0, some 5, some 1, some 2, some 3, some 4,
    none, none, none, none, none, none, none⟩]

/-- Witness for claim C5 at the one-server mixed-schema table. -/
theorem claim_C5_witness :
    resSummaryRowFor c5cols c5rows "g" ∈ aggregate_resource_stats ⟨c5cols, c5rows⟩ ∧
    (resSummaryRowFor c5cols c5rows "g").memory_rss_mb_mean = none ∧
    (resSummaryRowFor c5cols c5rows "g").cpu_user_ms_mean = none := by
  have hmem : resSummaryRowFor c5cols c5rows "g" ∈ aggregate_resource_stats ⟨c5cols, c5rows⟩ :=
    mem_resAgg.2 ⟨"g", by decide, rfl⟩
  have h := (claim_C5_no_fabricated_fields ⟨c5cols, c5rows⟩ "g").1 (by decide)
  have hf := h.1 _ hmem rfl
  exact ⟨hmem, hf.2.2.2.2.2.2.1, hf.1⟩

theorem leakRowFor_server (pval : PvalFun) (s n : String) (xs : List ℚ)
    (cells : List (Option ℚ)) : (leakRowFor pval s n xs cells).server = s := by
  unfold leakRowFor
  split
  · rfl
  · rfl

theorem leakRows_skip {pval : PvalFun} {cols : ResourceCols} {rows : List ResourceRow}
    {s : String} (h : (validSorted (rows.filter (fun r => r.server = s))).length < 10) :
    leakRowsForServer pval cols rows s = [] := by
  simp only [leakRowsForServer]
  rw [if_pos h]

theorem leakRows_eq {pval : PvalFun} {cols : ResourceCols} {rows : List ResourceRow}
    {s : String} (h : ¬ (validSorted (rows.filter (fun r => r.server = s))).length < 10) :
    leakRowsForServer pval cols rows s =
      (memLeakCols cols).map (fun c =>
        leakRowFor pval s c.1
          ((validSorted (rows.filter (fun r => r.server = s))).map (fun r =>
            tsVal r - (lmin ((validSorted (rows.filter (fun r => r.server = s))).map tsVal)).getD 0))
          ((validSorted (rows.filter (fun r => r.server = s))).map c.2)) := by
  simp only [leakRowsForServer]
  rw [if_neg h]

theorem mem_leaks {pval : PvalFun} {t : ResourceTable} {row : LeakRow} :
    row ∈ detect_memory_leaks pval t ↔
      ∃ s ∈ (t.rows.map (fun r => r.server)).dedup,
        row ∈ leakRowsForServer pval t.cols t.rows s := by
  obtain ⟨cols, rows⟩ := t
  cases rows with
  | nil =>
    constructor
    · intro h
      exact absurd h (List.not_mem_nil row)
    · rintro ⟨s, hs, -⟩
      simp [List.dedup] at hs
  | cons a t' =>
    simp only [detect_memory_leaks]
    exact List.mem_flatMap

/-- Zero-based elapsed-seconds time axis of one server's valid, sorted
resource samples. -/
def leakXs (rows : List ResourceRow) (s : String) : List ℚ :=
  let srows := validSorted (rows.filter (fun r => r.server = s))
  srows.map (fun r => tsVal r - (lmin (srows.map tsVal)).getD 0)


/-- Claim C1, amended: for every resource table and server, a server with
fewer than ten timestamp-valid samples is skipped entirely (no output
row); for a retained server and each memory-metric column present in the
table, an ordinary least-squares regression of the metric against
zero-based elapsed seconds is fitted, `growth_rate_mb_per_hour` equals
`slope * 3600` rounded to four decimal places, and `leak_detected` is true
if and only if all three hold: slope > 0.01 MB/sec, R-squared > 0.7 and
p-value < 0.05.  The p-value function `pval` (scipy's Student-t routine)
is an arbitrary parameter of the model. -/
theorem claim_C1_amended (pval : PvalFun) (t : ResourceTable) (s : String) :
    let srows := validSorted (t.rows.filter (fun r => r.server = s))
    (srows.length < 10 → ∀ row ∈ detect_memory_leaks pval t, row.server ≠ s) ∧
    (10 ≤ srows.length → s ∈ (t.rows.map (fun r => r.server)).dedup →
      ∀ nc ∈ memLeakCols t.cols,
        let xs := leakXs t.rows s
        let cells := srows.map nc.2
        let ys := cells.filterMap id
        leakRowFor pval s nc.1 xs cells ∈ detect_memory_leaks pval t ∧
        (cells.all (fun c => c.isSome) = true →
          (leakRowFor pval s nc.1 xs cells).growth_rate_mb_per_hour =
            some (roundTo 4 (regSlope xs ys * 3600)) ∧
          ((leakRowFor pval s nc.1 xs cells).leak_detected = true ↔
            (1 / 100 < regSlope xs ys ∧ 7 / 10 < regR2 xs ys ∧
             pval xs ys < 1 / 20)))) := by
  dsimp only
  constructor
  · intro hlen row hrow hsv
    obtain ⟨s', hs', hmem⟩ := mem_leaks.1 hrow
    by_cases hss : s' = s
    · subst hss
      rw [leakRows_skip hlen] at hmem
      exact absurd hmem (List.not_mem_nil row)
    · apply hss
      by_cases hlen' : (validSorted (t.rows.filter (fun r => r.server = s'))).length < 10
      · rw [leakRows_skip hlen'] at hmem
        exact absurd hmem (List.not_mem_nil row)
      · rw [leakRows_eq hlen'] at hmem
        obtain ⟨c, -, hc⟩ := List.mem_map.1 hmem
        rw [← hc] at hsv
        rw [leakRowFor_server] at hsv
        exact hsv
  · intro hlen hmem nc hnc
    have hnotlt : ¬ (validSorted (t.rows.filter (fun r => r.server = s))).length < 10 := by
      omega
    constructor
    · rw [mem_leaks]
      refine ⟨s, hmem, ?_⟩
      rw [leakRows_eq hnotlt]
      exact List.mem_map.2 ⟨nc, hnc, rfl⟩
    · intro hall
      simp only [leakRowFor]
      rw [if_pos hall]
      exact ⟨rfl, decide_eq_true_iff⟩

/-- Counterexample p-value function (its value is irrelevant to the
counterexample). -/
def c1pval : PvalFun := fun _ _ => 0

/-- Counterexample resource columns: only `memory_alloc_mb` is present. -/
def c1cols : ResourceCols :=
  ⟨false, false, false, true, false, false, false, false, false, false⟩

/-- Counterexample resource row constructor: server `s`, a valid timestamp
and a `memory_alloc_mb` value. -/
def c1row (t y : ℚ) : ResourceRow :=
  ⟨"s", some t, none, none, some y, none, none, none, none, none, none, none, none, none⟩

/-- Counterexample series: ten samples one second apart whose memory steps
from 0 MB to 1 MB halfway through, giving the fitted slope 5/33 MB/sec. -/
def c1rows : List ResourceRow :=
  [c1row 0 0, c1row 1 0, c1row 2 0, c1row 3 0, c1row 4 0,
   c1row 5 1, c1row 6 1, c1row 7 1, c1row 8 1, c1row 9 1]

/-- Counterexample time axis of `c1rows`. -/
def c1xs : List ℚ := [0, 1, 2, 3, 4, 5, 6, 7, 8, 9]

/-- Counterexample memory values of `c1rows`. -/
def c1ys : List ℚ := [0, 0, 0, 0, 0, 1, 1, 1, 1, 1]

set_option maxHeartbeats 2000000 in
/-- Counterexample to claim C1 as stated: on `c1rows` the fitted slope
times 3600 is exactly 6000/11 MB per hour (545.4545...), but the emitted
`growth_rate_mb_per_hour` is the four-decimal rounding 545.4545, not the
exact value the claim asserts. -/
theorem claim_C1_counterexample :
    detect_memory_leaks c1pval ⟨c1cols, c1rows⟩ =
      [leakRowFor c1pval "s" "Memory Alloc (MB)" c1xs (c1ys.map some)] ∧
    (leakRowFor c1pval "s" "Memory Alloc (MB)" c1xs (c1ys.map some)).growth_rate_mb_per_hour =
      some (5454545 / 10000) ∧
    regSlope c1xs c1ys * 3600 = 6000 / 11 ∧
    some ((5454545 : ℚ) / 10000) ≠ some (regSlope c1xs c1ys * 3600) := by
  have hfilter : c1rows.filter (fun r => r.server = "s") = c1rows := by decide
  have hvalid : validSorted (c1rows.filter (fun r => r.server = "s")) = c1rows := by
    rw [hfilter]
    norm_num [validSorted, List.filter, List.insertionSort, List.orderedInsert,
      tsVal, c1rows, c1row]
  have hlen : ¬ (validSorted (c1rows.filter (fun r => r.server = "s"))).length < 10 := by
    rw [hvalid]
    decide
  have hcells : c1rows.map (fun r => r.memory_alloc_mb) = c1ys.map some := by decide
  have harg : c1rows.map (fun r => tsVal r - (lmin (c1rows.map tsVal)).getD 0) = c1xs := by
    norm_num [c1rows, c1row, tsVal, lmin, c1xs]
  have hys : (c1ys.map some).filterMap id = c1ys := by decide
  have hall : ((c1ys.map some).all (fun c => c.isSome)) = true := by decide
  have hslope : regSlope c1xs c1ys = 5 / 33 := by
    norm_num [regSlope, regSxy, regSxx, c1xs, c1ys, lsum, List.zipWith]
  have hdetect : detect_memory_leaks c1pval ⟨c1cols, c1rows⟩ =
      [leakRowFor c1pval "s" "Memory Alloc (MB)" c1xs (c1ys.map some)] := by
    simp only [detect_memory_leaks, c1rows]
    rw [show ((c1row 0 0 :: [c1row 1 0, c1row 2 0, c1row 3 0, c1row 4 0,
      c1row 5 1, c1row 6 1, c1row 7 1, c1row 8 1,
      c1row 9 1]).map (fun r => r.server)).dedup = ["s"] from by decide]
    simp only [List.flatMap_cons, List.flatMap_nil, List.append_nil]
    have hrows : (c1row 0 0 :: [c1row 1 0, c1row 2 0, c1row 3 0, c1row 4 0,
      c1row 5 1, c1row 6 1, c1row 7 1, c1row 8 1, c1row 9 1]) = c1rows := by rfl
    rw [hrows, leakRows_eq hlen]
    rw [show memLeakCols c1cols =
      [("Memory Alloc (MB)", fun r => r.memory_alloc_mb)] from rfl]
    simp only [List.map_cons, List.map_nil]
    rw [hvalid, hcells, harg]
  have hgrow : (leakRowFor c1pval "s" "Memory Alloc (MB)" c1xs
      (c1ys.map some)).growth_rate_mb_per_hour =
      some (roundTo 4 (regSlope c1xs ((c1ys.map some).filterMap id) * 3600)) := by
    simp only [leakRowFor]
    rw [if_pos hall]
  have hround : roundTo 4 ((5 : ℚ) / 33 * 3600) = 5454545 / 10000 := by
    norm_num [roundTo, rhe]
  have hslope36 : regSlope c1xs c1ys * 3600 = 6000 / 11 := by
    rw [hslope]
    norm_num
  refine ⟨hdetect, ?_, hslope36, ?_⟩
  · rw [hgrow, hys, hslope, hround]
  · rw [hslope36]
    intro h
    rw [Option.some.injEq] at h
    norm_num at h

/-- Witness for the amended claim C1 at the ten-sample table `c1rows`. -/
theorem claim_C1_amended_witness :
    leakRowFor c1pval "s" "Memory Alloc (MB)" (leakXs c1rows "s")
        ((validSorted (c1rows.filter (fun r => r.server = "s"))).map
          (fun r => r.memory_alloc_mb)) ∈
      detect_memory_leaks c1pval ⟨c1cols, c1rows⟩ := by
  have hvalid : validSorted (c1rows.filter (fun r => r.server = "s")) = c1rows := by
    norm_num [validSorted, List.filter, List.insertionSort, List.orderedInsert,
      tsVal, c1rows, c1row]
  have hlen : 10 ≤ (validSorted (c1rows.filter (fun r => r.server = "s"))).length := by
    rw [hvalid]
    decide
  have hded : "s" ∈ (c1rows.map (fun r => r.server)).dedup := by decide
  have hcols : ("Memory Alloc (MB)", fun r => r.memory_alloc_mb) ∈ memLeakCols c1cols := by
    rw [show memLeakCols c1cols =
      [("Memory Alloc (MB)", fun r => r.memory_alloc_mb)] from rfl]
    exact List.mem_singleton.2 rfl
  exact ((claim_C1_amended c1pval ⟨c1cols, c1rows⟩ "s").2 hlen hded
    ("Memory Alloc (MB)", fun r => r.memory_alloc_mb) hcols).1

theorem summaryLibs_nodup (rtt conn bc : List StatRow) (tp : List ThroughStatRow)
    (rel : Option (List RelStatRow)) (stab : Option (List StabStatRow)) :
    (summaryLibs rtt conn bc tp rel stab).Nodup := by
  unfold summaryLibs
  exact ((List.perm_insertionSort _ _).nodup_iff).2 (List.nodup_dedup _)

theorem count_filter_map_eq {f : String → SummaryRow} (hf : ∀ l, (f l).library = l)
    (libs : List String) (hnd : libs.Nodup) (lib : String) :
    ((libs.map f).filter (fun r => r.library = lib)).length =
      if lib ∈ libs then 1 else 0 := by
  induction libs with
  | nil => simp
  | cons a t ih =>
    have hnd' := List.nodup_cons.1 hnd
    simp only [List.map_cons, List.filter_cons]
    by_cases ha : a = lib
    · subst ha
      rw [if_pos (by simp [hf]), if_pos (List.mem_cons_self a t)]
      simp only [List.length_cons, ih hnd'.2]
      rw [if_neg hnd'.1]
    · rw [if_neg (by simp [hf, ha]), ih hnd'.2]
      by_cases hmem : lib ∈ t
      · rw [if_pos hmem, if_pos (List.mem_cons_of_mem a hmem)]
      · rw [if_neg hmem, if_neg (by
          intro hc
          rcases List.mem_cons.1 hc with hc | hc
          · exact ha hc.symm
          · exact hmem hc)]

theorem summaryRowFor_library (rtt conn bc : List StatRow) (tp : List ThroughStatRow)
    (rel : List RelStatRow) (stab : List StabStatRow) (lib : String) :
    (summaryRowFor rtt conn bc tp rel stab lib).library = lib := rfl

theorem mem_summary {rtt conn bc : List StatRow} {tp : List ThroughStatRow}
    {rel : Option (List RelStatRow)} {stab : Option (List StabStatRow)}
    {row : SummaryRow} :
    row ∈ create_summary_table rtt conn bc tp rel stab ↔
      ∃ lib ∈ summaryLibs rtt conn bc tp rel stab,
        summaryRowFor rtt conn bc tp (rel.getD []) (stab.getD []) lib = row := by
  unfold create_summary_table
  exact List.mem_map

/-- Claim C9: the summary table builder emits exactly one row per library
of the union of the input tables' `library` values (the reliability and
stability tables being optional), and each row's metric blocks are the
claimed rollups of exactly that library's rows of each table — in
particular a library absent from a table has every field of that block
null (sparse, never zero-filled): mean-of-means and median-of-medians for
the latency-class tables, the first row's `mean`/`max` for throughput,
mean of `total_loss_rate` and sum of `messages_lost_sum` for reliability,
and sum of `disconnect_count_sum` and mean of
`clients_with_disconnects_pct` for stability. -/
theorem claim_C9_summary (rtt conn bc : List StatRow) (tp : List ThroughStatRow)
    (rel : Option (List RelStatRow)) (stab : Option (List StabStatRow)) :
    (∀ lib, ((create_summary_table rtt conn bc tp rel stab).filter
        (fun r => r.library = lib)).length =
      if lib ∈ summaryLibs rtt conn bc tp rel stab then 1 else 0) ∧
    (∀ row ∈ create_summary_table rtt conn bc tp rel stab,
      (rtt.filter (fun r => r.library = row.library) = [] →
        row.rtt_mean_ms = none ∧ row.rtt_median_ms = none) ∧
      row.rtt_mean_ms =
        omean ((rtt.filter (fun r => r.library = row.library)).map (fun r => r.mean)) ∧
      row.rtt_median_ms =
        omedian ((rtt.filter (fun r => r.library = row.library)).map (fun r => r.median)) ∧
      (conn.filter (fun r => r.library = row.library) = [] →
        row.conn_mean_ms = none ∧ row.conn_median_ms = none) ∧
      row.conn_mean_ms =
        omean ((conn.filter (fun r => r.library = row.library)).map (fun r => r.mean)) ∧
      row.conn_median_ms =
        omedian ((conn.filter (fun r => r.library = row.library)).map (fun r => r.median)) ∧
      (bc.filter (fun r => r.library = row.library) = [] →
        row.broadcast_mean_ms = none ∧ row.broadcast_median_ms = none) ∧
      row.broadcast_mean_ms =
        omean ((bc.filter (fun r => r.library = row.library)).map (fun r => r.mean)) ∧
      row.broadcast_median_ms =
        omedian ((bc.filter (fun r => r.library = row.library)).map (fun r => r.median)) ∧
      (tp.filter (fun r => r.library = row.library) = [] →
        row.throughput_mean_msg_s = none ∧ row.throughput_max_msg_s = none) ∧
      row.throughput_mean_msg_s =
        (tp.filter (fun r => r.library = row.library)).head?.bind (fun r => r.mean) ∧
      row.throughput_max_msg_s =
        (tp.filter (fun r => r.library = row.library)).head?.bind (fun r => r.max) ∧
      ((rel.getD []).filter (fun r => r.library = row.library) = [] →
        row.message_loss_rate_pct = none ∧ row.messages_lost_total = none) ∧
      ((rel.getD []).filter (fun r => r.library = row.library) ≠ [] →
        row.message_loss_rate_pct =
          some (pmean (((rel.getD []).filter (fun r => r.library = row.library)).map
            (fun r => r.total_loss_rate))) ∧
        row.messages_lost_total =
          some (lsum (((rel.getD []).filter (fun r => r.library = row.library)).map
            (fun r => r.messages_lost_sum)))) ∧
      ((stab.getD []).filter (fun r => r.library = row.library) = [] →
        row.disconnect_count_total = none ∧ row.clients_with_disconnects_pct = none) ∧
      ((stab.getD []).filter (fun r => r.library = row.library) ≠ [] →
        row.disconnect_count_total =
          some (lsum (((stab.getD []).filter (fun r => r.library = row.library)).map
            (fun r => r.disconnect_count_sum)))) ∧
      row.clients_with_disconnects_pct =
        lmean (((stab.getD []).filter (fun r => r.library = row.library)).map
          (fun r => r.clients_with_disconnects_pct))) := by
  constructor
  · intro lib
    unfold create_summary_table
    exact count_filter_map_eq (summaryRowFor_library rtt conn bc tp _ _)
      (summaryLibs rtt conn bc tp rel stab)
      (summaryLibs_nodup rtt conn bc tp rel stab) lib
  · intro row hrow
    obtain ⟨lib, hlib, hrw⟩ := mem_summary.1 hrow
    have hl : row.library = lib := by
      rw [← hrw]
      rfl
    simp only [hl]
    simp only [← hrw]
    refine ⟨?_, rfl, rfl, ?_, rfl, rfl, ?_, rfl, rfl, ?_, rfl, rfl, ?_, ?_, ?_, ?_, rfl⟩
    · intro he
      constructor
      · show omean ((rtt.filter _).map _) = none
        rw [he]
        rfl
      · show omedian ((rtt.filter _).map _) = none
        rw [he]
        rfl
    · intro he
      constructor
      · show omean ((conn.filter _).map _) = none
        rw [he]
        rfl
      · show omedian ((conn.filter _).map _) = none
        rw [he]
        rfl
    · intro he
      constructor
      · show omean ((bc.filter _).map _) = none
        rw [he]
        rfl
      · show omedian ((bc.filter _).map _) = none
        rw [he]
        rfl
    · intro he
      constructor
      · show ((tp.filter _).head?.bind _) = none
        rw [he]
        rfl
      · show ((tp.filter _).head?.bind _) = none
        rw [he]
        rfl
    · intro he
      constructor
      · show (match ((rel.getD []).filter _ : List RelStatRow) with
          | [] => none
          | _ => some (pmean _)) = none
        rw [he]
      · show (match ((rel.getD []).filter _ : List RelStatRow) with
          | [] => none
          | _ => some (lsum _)) = none
        rw [he]
    · intro he
      cases hfe : (rel.getD []).filter (fun r => r.library = lib) with
      | nil => exact absurd hfe he
      | cons b u =>
        constructor
        · show (match ((rel.getD []).filter _ : List RelStatRow) with
            | [] => none
            | _ => some (pmean _)) = _
          rw [hfe]
        · show (match ((rel.getD []).filter _ : List RelStatRow) with
            | [] => none
            | _ => some (lsum _)) = _
          rw [hfe]
    · intro he
      constructor
      · show (match ((stab.getD []).filter _ : List StabStatRow) with
          | [] => none
          | _ => some (lsum _)) = none
        rw [he]
      · show lmean (((stab.getD []).filter _).map _) = none
        rw [he]
        rfl
    · intro he
      cases hfe : (stab.getD []).filter (fun r => r.library = lib) with
      | nil => exact absurd hfe he
      | cons b u =>
        show (match ((stab.getD []).filter _ : List StabStatRow) with
          | [] => none
          | _ => some (lsum _)) = _
        rw [hfe]

/-- Witness RTT aggregate table for claim C9. -/
def c9rtt : List StatRow :=
  [{ library := "a", client_count := 1, mean := some 5, median := some 5,
     stdSq := none, min := some 5, max := some 5, count := 1 }]

/-- Witness for claim C9: with one RTT aggregate row for library `a`, the
other tables empty and the optional tables absent, the summary has exactly
one row for `a` and none for `b`. -/
theorem claim_C9_witness :
    ((create_summary_table c9rtt [] [] [] none none).filter
      (fun r => r.library = "a")).length = 1 ∧
    ((create_summary_table c9rtt [] [] [] none none).filter
      (fun r => r.library = "b")).length = 0 := by
  have ha := (claim_C9_summary c9rtt [] [] [] none none).1 "a"
  have hb := (claim_C9_summary c9rtt [] [] [] none none).1 "b"
  rw [if_pos (by decide)] at ha
  rw [if_neg (by decide)] at hb
  exact ⟨ha, hb⟩

theorem mem_stabKeys {rows : List StabRow} {k : GKey} :
    k ∈ stabKeys rows ↔ k ∈ rows.map stabKey := by
  unfold stabKeys
  rw [List.mem_insertionSort]
  exact List.mem_dedup

theorem stabAgg_eq {rows : List StabRow} (h : rows ≠ []) :
    aggregate_stability_stats rows = (stabKeys rows).map (stabStatRowFor rows) := by
  cases rows with
  | nil => exact absurd rfl h
  | cons a t => rfl

theorem mem_stabAgg {rows : List StabRow} {row : StabStatRow} :
    row ∈ aggregate_stability_stats rows ↔
      ∃ k ∈ stabKeys rows, stabStatRowFor rows k = row := by
  cases rows with
  | nil =>
    constructor
    · intro h
      exact absurd h (List.not_mem_nil row)
    · rintro ⟨k, hk, -⟩
      simp [stabKeys, List.dedup] at hk
  | cons a t =>
    rw [stabAgg_eq (List.cons_ne_nil a t)]
    simp [List.mem_map]

theorem rhe_intCast (n : ℤ) : rhe (n : ℚ) = n := by
  unfold rhe
  rw [Int.floor_intCast]
  norm_num

theorem roundTo_mul_pow (d : ℕ) (q : ℚ) :
    roundTo d q * (10 : ℚ) ^ d = (rhe (q * (10 : ℚ) ^ d) : ℚ) := by
  unfold roundTo
  rw [div_mul_cancel₀]
  positivity

theorem roundTo_idem (d : ℕ) (q : ℚ) : roundTo d (roundTo d q) = roundTo d q := by
  have h : roundTo d (roundTo d q) =
      (rhe (roundTo d q * (10 : ℚ) ^ d) : ℚ) / (10 : ℚ) ^ d := rfl
  rw [h, roundTo_mul_pow, rhe_intCast]
  rfl

theorem pround_idem (d : ℕ) (v : PVal) : pround d (pround d v) = pround d v := by
  cases v with
  | num q =>
    show PVal.num (roundTo d (roundTo d q)) = PVal.num (roundTo d q)
    rw [roundTo_idem]
  | nan => rfl
  | pinf => rfl
  | ninf => rfl

theorem omap_round_idem (d : ℕ) (v : Option ℚ) :
    (v.map (roundTo d)).map (roundTo d) = v.map (roundTo d) := by
  cases v with
  | none => rfl
  | some q =>
    show some (roundTo d (roundTo d q)) = some (roundTo d q)
    rw [roundTo_idem]

theorem map_round_some_idem (d : ℕ) (q : ℚ) :
    Option.map (roundTo d) (some (roundTo d q)) = some (roundTo d q) := by
  show some (roundTo d (roundTo d q)) = some (roundTo d q)
  rw [roundTo_idem]

/-- Claim C10: derived-metric fields are rounded before being returned:
`total_loss_rate` and `clients_with_disconnects_pct` are the two-decimal
roundings of their formulas (and rounding them again changes nothing);
every row of the degradation table has its four derived fields fixed under
two-decimal rounding; every leak row has `growth_rate_mb_per_hour`,
`r_squared` and `p_value` fixed under four-decimal rounding and its memory
endpoints fixed under two-decimal rounding. -/
theorem claim_C10_rounding :
    (∀ (rows : List RelRow), ∀ row ∈ aggregate_reliability_stats rows,
      row.total_loss_rate =
        pround 2 (pscale 100 (pdiv row.messages_lost_sum row.messages_sent_sum)) ∧
      pround 2 row.total_loss_rate = row.total_loss_rate) ∧
    (∀ (rows : List StabRow), ∀ row ∈ aggregate_stability_stats rows,
      row.clients_with_disconnects_pct =
        roundTo 2 ((((stabValuesFor rows (row.library, row.client_count)).filter
            (fun v => 0 < v)).length : ℚ) /
          ((stabValuesFor rows (row.library, row.client_count)).length : ℚ) * 100) ∧
      roundTo 2 row.clients_with_disconnects_pct = row.clients_with_disconnects_pct) ∧
    (∀ (rows : List DegInRow), ∀ row ∈ calculate_performance_degradation rows,
      roundTo 2 row.baseline_rtt_ms = row.baseline_rtt_ms ∧
      roundTo 2 row.peak_rtt_ms = row.peak_rtt_ms ∧
      roundTo 2 row.total_degradation_pct = row.total_degradation_pct ∧
      roundTo 2 row.degradation_per_100_clients_pct = row.degradation_per_100_clients_pct) ∧
    (∀ (pval : PvalFun) (t : ResourceTable), ∀ row ∈ detect_memory_leaks pval t,
      row.growth_rate_mb_per_hour.map (roundTo 4) = row.growth_rate_mb_per_hour ∧
      row.r_squared.map (roundTo 4) = row.r_squared ∧
      row.p_value.map (roundTo 4) = row.p_value ∧
      row.start_memory_mb.map (roundTo 2) = row.start_memory_mb ∧
      row.end_memory_mb.map (roundTo 2) = row.end_memory_mb ∧
      row.total_growth_mb.map (roundTo 2) = row.total_growth_mb) := by
  refine ⟨?_, ?_, ?_, ?_⟩
  · intro rows row hrow
    rw [relAgg_row_key hrow]
    exact ⟨rfl, pround_idem 2 _⟩
  · intro rows row hrow
    obtain ⟨k, hk, hrw⟩ := mem_stabAgg.1 hrow
    have hkey : (row.library, row.client_count) = k := by
      rw [← hrw]
      rfl
    rw [hkey, ← hrw]
    exact ⟨rfl, roundTo_idem 2 _⟩
  · intro rows row hrow
    obtain ⟨lib, -, -, hrw⟩ := mem_deg.1 hrow
    rw [← hrw]
    exact ⟨roundTo_idem 2 _, roundTo_idem 2 _, roundTo_idem 2 _, roundTo_idem 2 _⟩
  · intro pval t row hrow
    obtain ⟨s, -, hmem⟩ := mem_leaks.1 hrow
    by_cases hlen : (validSorted (t.rows.filter (fun r => r.server = s))).length < 10
    · rw [leakRows_skip hlen] at hmem
      exact absurd hmem (List.not_mem_nil row)
    · rw [leakRows_eq hlen] at hmem
      obtain ⟨c, -, hc⟩ := List.mem_map.1 hmem
      rw [← hc]
      unfold leakRowFor
      split
      · dsimp only
        exact ⟨map_round_some_idem 4 _, map_round_some_idem 4 _, map_round_some_idem 4 _,
          omap_round_idem 2 _, omap_round_idem 2 _, omap_round_idem 2 _⟩
      · dsimp only
        exact ⟨rfl, rfl, rfl, omap_round_idem 2 _, omap_round_idem 2 _,
          omap_round_idem 2 _⟩

/-- Witness for claim C10 at a one-row reliability table. -/
theorem claim_C10_witness :
    pround 2 ((relStatRowFor [⟨"b", 2, 4, 3, 1, 25⟩] ("b", 2)).total_loss_rate) =
      (relStatRowFor [⟨"b", 2, 4, 3, 1, 25⟩] ("b", 2)).total_loss_rate := by
  have hmem : relStatRowFor [⟨"b", 2, 4, 3, 1, 25⟩] ("b", 2) ∈
      aggregate_reliability_stats [⟨"b", 2, 4, 3, 1, 25⟩] :=
    relStatRowFor_mem (by decide)
  exact ((claim_C10_rounding.1 [⟨"b", 2, 4, 3, 1, 25⟩] _ hmem)).2
